import Mathlib

/-!
Verification of the ClothKeep sale-transaction engine.

This file gives a shallow embedding of the core logic of
`src/app/page.tsx` — the money calculator, the invoice id generator,
the SKU-based cart add, the checkout/settlement engine, the JSON
import, and the cloud push/pull reconciliation — and proves the
spec's testable properties about it.

Modelling conventions:
- JavaScript numbers holding money (prices, totals, tax rates) are
  modelled as `Rat`; quantities and stock counts are modelled as `Int`
  (the spec declares stock a non-negative integer).
- Optional TypeScript fields (`x?: T`) and nullable remote columns
  are modelled as `Option`; `a ?? b` becomes `Option.getD`.
- `uuidv4()` and the current date/time are modelled as explicit
  parameters (an id-supply function and year/month/timestamp values).
-/

/-- Payment methods of a `Sale` (source: `Sale.paymentMethod`). -/
inductive PaymentMethod where
  | cash
  | card
  | digital
  | other
deriving DecidableEq, Repr

/-- A size/color variant of a product (source interface `Variant`). -/
structure Variant where
  id : String
  size : String
  color : String
  stock : Int
  price : Option Rat
deriving DecidableEq, Repr

/-- A catalog product (source interface `Product`). -/
structure Product where
  id : String
  name : String
  sku : String
  category : Option String
  cost : Rat
  price : Rat
  variants : List Variant
  notes : Option String
  imageUrl : Option String
deriving DecidableEq, Repr

/-- A customer (source interface `Customer`). -/
structure Customer where
  id : String
  name : String
  phone : Option String
  email : Option String
  notes : Option String
deriving DecidableEq, Repr

/-- One line of a completed sale (source interface `SaleItem`). -/
structure SaleItem where
  id : String
  productId : String
  variantId : Option String
  sku : String
  name : String
  size : Option String
  color : Option String
  qty : Int
  price : Rat
deriving DecidableEq, Repr

/-- An immutable sale record (source interface `Sale`).  The
`customerSnapshot` holds the whole customer object frozen at checkout
time, exactly as the source stores it. -/
structure Sale where
  id : String
  createdAt : String
  items : List SaleItem
  subtotal : Rat
  discount : Rat
  taxRate : Rat
  taxAmount : Rat
  total : Rat
  paymentMethod : PaymentMethod
  customerId : Option String
  customerSnapshot : Option Customer
  notes : Option String
deriving DecidableEq, Repr

/-- Store settings (source interface `Settings`). -/
structure Settings where
  storeName : String
  currency : String
  taxRateDefault : Rat
  lowStockThreshold : Int
  supabaseUrl : Option String
  supabaseAnonKey : Option String
deriving DecidableEq, Repr

/-- A line of the in-progress cart (source type `CartItem`). -/
structure CartItem where
  key : String
  productId : String
  variantId : Option String
  display : String
  unitPrice : Rat
  qty : Int
  sku : String
  size : Option String
  color : Option String
deriving DecidableEq, Repr

/-- Result of the money calculator (source memo `cartTotals`). -/
structure Totals where
  subtotal : Rat
  discounted : Rat
  taxAmount : Rat
  total : Rat
deriving DecidableEq, Repr

/-- Source `cartTotals`: subtotal by reduction over the cart, discount
floored at zero, tax as a percentage of the discounted amount. -/
def cartTotals (cart : List CartItem) (cartDiscount cartTaxRate : Rat) : Totals :=
  let subtotal := cart.foldl (fun s it => s + it.unitPrice * (it.qty : Rat)) 0
  let discounted := max 0 (subtotal - cartDiscount)
  let taxAmount := discounted * cartTaxRate / 100
  let total := discounted + taxAmount
  ⟨subtotal, discounted, taxAmount, total⟩

/-- JavaScript `String.prototype.padStart`: pad on the left with the
character `c` up to length `n`. -/
def padStart (s : String) (n : Nat) (c : Char) : String :=
  if n ≤ s.length then s else String.mk (List.replicate (n - s.length) c) ++ s

/-- Source `generateInvoiceId`.  `dayjs().format("YY")`/`("MM")` are the
zero-padded two-digit year and month of the current date, passed here
as explicit `year`/`month` arguments. -/
def generateInvoiceId (year month : Nat) (sales : List Sale) : String :=
  let y := padStart (Nat.repr (year % 100)) 2 '0'
  let m := padStart (Nat.repr month) 2 '0'
  let seq := padStart (Nat.repr (sales.length + 1)) 4 '0'
  "INV-" ++ y ++ m ++ "-" ++ seq

/-- Composite display SKU of a variant within its product:
`product.sku-size-color` (template literal in the source). -/
def compositeSku (p : Product) (v : Variant) : String :=
  p.sku ++ "-" ++ v.size ++ "-" ++ v.color

/-- The cart line built by `addToCartBySku` for product `p` and
optionally resolved variant `v`; `key` models the fresh `uuidv4()`. -/
def mkCartLine (key : String) (p : Product) (v : Option Variant) : CartItem :=
  { key := key
    productId := p.id
    variantId := v.map (fun vv => vv.id)
    display := p.name ++ (match v with
      | some vv => " (" ++ vv.size ++ "/" ++ vv.color ++ ")"
      | none => "")
    unitPrice := match v with
      | some vv => vv.price.getD p.price
      | none => p.price
    qty := 1
    sku := match v with
      | some vv => compositeSku p vv
      | none => p.sku
    size := v.map (fun vv => vv.size)
    color := v.map (fun vv => vv.color) }

/-- The product lookup predicate of `addToCartBySku`: the bare SKU or
some variant's composite SKU equals the scanned string. -/
def skuMatches (p : Product) (sku : String) : Bool :=
  p.sku == sku || p.variants.any (fun v => compositeSku p v == sku)

/-- Source `addToCartBySku`: find the first product whose bare SKU or
one of whose variant composite SKUs equals the string; inside it prefer
the exact composite match, else fall back to the first variant; alert
(error, cart untouched) when nothing matches. -/
def addToCartBySku (products : List Product) (cart : List CartItem)
    (key : String) (sku : String) : Except String (List CartItem) :=
  match products.find? (fun p => skuMatches p sku) with
  | none => Except.error ("SKU not found")
  | some prod =>
    let v : Option Variant :=
      if prod.variants.isEmpty then none
      else
        match prod.variants.find? (fun vv => compositeSku prod vv == sku) with
        | some vv => some vv
        | none => prod.variants.head?
    Except.ok (cart ++ [mkCartLine key prod v])

/-- The cart after `addToCartBySku`: unchanged when the lookup fails
(the source only alerts), else the extended cart. -/
def addToCartBySkuState (products : List Product) (cart : List CartItem)
    (key : String) (sku : String) : List CartItem :=
  match addToCartBySku products cart key sku with
  | Except.error _ => cart
  | Except.ok c => c

/-- JavaScript truthiness of an optional string (`it.variantId` used as
a boolean in the source's checkout filter): `undefined` and the empty
string are falsy. -/
def optTruthy : Option String → Bool
  | none => false
  | some s => !(s == "")

/-- Error kinds of `checkout` (the source surfaces them as alerts): an
empty cart, or insufficient stock naming the product, variant and its
available quantity. -/
inductive CheckoutError where
  | emptyCart
  | stock (productName size color : String) (available : Int)
deriving DecidableEq, Repr

/-- The validation loop of `checkout`: scan cart lines in order; for
the first line whose product and variant both resolve and whose stock
is short, return the corresponding error. -/
def firstStockError (products : List Product) : List CartItem → Option CheckoutError
  | [] => none
  | it :: rest =>
    match products.find? (fun pp => pp.id == it.productId) with
    | some p =>
      match p.variants.find? (fun vv => some vv.id == it.variantId) with
      | some v =>
        if v.stock < it.qty then some (CheckoutError.stock p.name v.size v.color v.stock)
        else firstStockError products rest
      | none => firstStockError products rest
    | none => firstStockError products rest

/-- The sale item built from a cart line (`id` is the fresh uuid). -/
def mkSaleItem (id : String) (it : CartItem) : SaleItem :=
  { id := id
    productId := it.productId
    variantId := it.variantId
    sku := it.sku
    name := it.display
    size := it.size
    color := it.color
    qty := it.qty
    price := it.unitPrice }

/-- The `cart.map` building sale items, with `uuidv4()` modelled as an
indexed id supply. -/
def mkSaleItems (uuidOf : Nat → String) : Nat → List CartItem → List SaleItem
  | _, [] => []
  | i, it :: rest => mkSaleItem (uuidOf i) it :: mkSaleItems uuidOf (i + 1) rest

/-- The commit step of `checkout`: for each product, collect the sale
items that name it and carry a truthy variant id, then decrement each
matched variant's stock, floored at zero. -/
def applyDecrements (saleItems : List SaleItem) (products : List Product) : List Product :=
  products.map (fun p =>
    let relatedItems := saleItems.filter (fun it => it.productId == p.id && optTruthy it.variantId)
    if relatedItems.isEmpty then p
    else
      { p with variants := p.variants.map (fun v =>
          match relatedItems.find? (fun ri => ri.variantId == some v.id) with
          | some it => { v with stock := max 0 (v.stock - it.qty) }
          | none => v) })

/-- The mutable state touched by `checkout`: catalog, sale history,
cart, and the cart-level discount and tax rate. -/
structure CheckoutState where
  products : List Product
  sales : List Sale
  cart : List CartItem
  cartDiscount : Rat
  cartTaxRate : Rat
deriving DecidableEq, Repr

/-- Source `checkout`: reject an empty cart, validate stock for every
line, then build the sale, decrement stock, append to history, clear
the cart and reset discount and tax rate to the store default. -/
def checkout (st : CheckoutState) (customers : List Customer)
    (year month : Nat) (now : String) (uuidOf : Nat → String)
    (payment : PaymentMethod) (customerId : Option String)
    (taxDefault : Rat) : Except CheckoutError CheckoutState :=
  if st.cart.isEmpty then Except.error CheckoutError.emptyCart
  else
    match firstStockError st.products st.cart with
    | some e => Except.error e
    | none =>
      let saleId := generateInvoiceId year month st.sales
      let saleItems := mkSaleItems uuidOf 0 st.cart
      let totals := cartTotals st.cart st.cartDiscount st.cartTaxRate
      let sale : Sale :=
        { id := saleId
          createdAt := now
          items := saleItems
          subtotal := totals.subtotal
          discount := st.cartDiscount
          taxRate := st.cartTaxRate
          taxAmount := totals.taxAmount
          total := totals.total
          paymentMethod := payment
          customerId := customerId
          customerSnapshot := match customerId with
            | some cid => customers.find? (fun c => c.id == cid)
            | none => none
          notes := none }
      Except.ok
        { products := applyDecrements saleItems st.products
          sales := sale :: st.sales
          cart := []
          cartDiscount := 0
          cartTaxRate := taxDefault }

/-- `checkout` as a state transition: an error leaves every component
of the state untouched (the source only alerts and returns). -/
def runCheckout (st : CheckoutState) (customers : List Customer)
    (year month : Nat) (now : String) (uuidOf : Nat → String)
    (payment : PaymentMethod) (customerId : Option String)
    (taxDefault : Rat) : CheckoutState × Option CheckoutError :=
  match checkout st customers year month now uuidOf payment customerId taxDefault with
  | Except.error e => (st, some e)
  | Except.ok st2 => (st2, none)

/-- The full local state serialized by export and replaced by import. -/
structure LocalState where
  settings : Settings
  products : List Product
  customers : List Customer
  sales : List Sale
deriving DecidableEq, Repr

/-- A parsed import document: the same shape as the export payload with
every top-level field independently optional (source `importJSON` tests
each field before applying it). -/
structure ImportDoc where
  settings : Option Settings
  products : Option (List Product)
  customers : Option (List Customer)
  sales : Option (List Sale)
deriving DecidableEq, Repr

/-- Source `importJSON` applied to an already-parsed document: each
present field wholesale replaces the corresponding collection, each
absent field leaves it alone. -/
def importApply (doc : ImportDoc) (st : LocalState) : LocalState :=
  { settings := match doc.settings with
      | some s => s
      | none => st.settings
    products := match doc.products with
      | some ps => ps
      | none => st.products
    customers := match doc.customers with
      | some cs => cs
      | none => st.customers
    sales := match doc.sales with
      | some ss => ss
      | none => st.sales }

/-- The `{ products, customers, sales }` triple moved by `cloudSync`. -/
structure LocalData where
  products : List Product
  customers : List Customer
  sales : List Sale
deriving DecidableEq, Repr

/-- Remote `products` row (columns of the source's push mapping;
nullable columns are `Option`). -/
structure ProdRow where
  id : String
  name : String
  sku : String
  category : Option String
  cost : Option Rat
  price : Option Rat
  notes : Option String
  image_url : Option String
deriving DecidableEq, Repr

/-- Remote `product_variants` row. -/
structure VarRow where
  id : String
  product_id : String
  size : Option String
  color : Option String
  stock : Option Int
  price : Option Rat
deriving DecidableEq, Repr

/-- Remote `customers` row. -/
structure CustRow where
  id : String
  name : String
  phone : Option String
  email : Option String
  notes : Option String
deriving DecidableEq, Repr

/-- Remote `sales` row. -/
structure SaleRow where
  id : String
  created_at : Option String
  subtotal : Option Rat
  discount : Option Rat
  tax_rate : Option Rat
  tax_amount : Option Rat
  total : Option Rat
  payment_method : Option PaymentMethod
  customer_id : Option String
  notes : Option String
deriving DecidableEq, Repr

/-- Remote `sale_items` row. -/
structure ItemRow where
  id : String
  sale_id : String
  product_id : String
  variant_id : Option String
  sku : Option String
  name : Option String
  size : Option String
  color : Option String
  qty : Option Int
  price : Option Rat
deriving DecidableEq, Repr

/-- The five remote tables. -/
structure RemoteStore where
  products : List ProdRow
  product_variants : List VarRow
  customers : List CustRow
  sales : List SaleRow
  sale_items : List ItemRow
deriving DecidableEq, Repr

/-- Push mapping for one product (source `prodRows`). -/
def toProdRow (p : Product) : ProdRow :=
  { id := p.id, name := p.name, sku := p.sku, category := p.category
    cost := some p.cost, price := some p.price, notes := p.notes
    image_url := p.imageUrl }

/-- Push mapping for one variant of product `pid` (source `varRows`). -/
def toVarRow (pid : String) (v : Variant) : VarRow :=
  { id := v.id, product_id := pid, size := some v.size, color := some v.color
    stock := some v.stock, price := v.price }

/-- Push mapping for one customer (source `custRows`). -/
def toCustRow (c : Customer) : CustRow :=
  { id := c.id, name := c.name, phone := c.phone, email := c.email
    notes := c.notes }

/-- Push mapping for one sale (source `saleRows`).  Note that the sale's
`customerSnapshot` has no remote column and is not transmitted. -/
def toSaleRow (s : Sale) : SaleRow :=
  { id := s.id, created_at := some s.createdAt, subtotal := some s.subtotal
    discount := some s.discount, tax_rate := some s.taxRate
    tax_amount := some s.taxAmount, total := some s.total
    payment_method := some s.paymentMethod, customer_id := s.customerId
    notes := s.notes }

/-- Push mapping for one sale item of sale `sid` (source `itemRows`). -/
def toItemRow (sid : String) (it : SaleItem) : ItemRow :=
  { id := it.id, sale_id := sid, product_id := it.productId
    variant_id := it.variantId, sku := some it.sku, name := some it.name
    size := it.size, color := it.color, qty := some it.qty
    price := some it.price }

/-- Source `cloudSync` in the `push` direction, run against an empty
remote store: each table upsert inserts exactly its row set (an upsert
into an empty table by primary id is a plain insert). -/
def cloudPush (d : LocalData) : RemoteStore :=
  { products := d.products.map toProdRow
    product_variants := d.products.flatMap (fun p => p.variants.map (toVarRow p.id))
    customers := d.customers.map toCustRow
    sales := d.sales.map toSaleRow
    sale_items := d.sales.flatMap (fun s => s.items.map (toItemRow s.id)) }

/-- Pull reconstruction of a product (variants attached separately). -/
def prodOfRow (r : ProdRow) : Product :=
  { id := r.id, name := r.name, sku := r.sku, category := r.category
    cost := r.cost.getD 0, price := r.price.getD 0, variants := []
    notes := r.notes, imageUrl := r.image_url }

/-- Pull reconstruction of a variant. -/
def varOfRow (r : VarRow) : Variant :=
  { id := r.id, size := r.size.getD "", color := r.color.getD ""
    stock := r.stock.getD 0, price := r.price }

/-- Pull reconstruction of a customer. -/
def custOfRow (r : CustRow) : Customer :=
  { id := r.id, name := r.name, phone := r.phone, email := r.email
    notes := r.notes }

/-- Pull reconstruction of a sale (items attached separately); a
missing `created_at` defaults to the current time `now`, a missing
payment method to `cash`, and no snapshot column exists. -/
def saleOfRow (now : String) (r : SaleRow) : Sale :=
  { id := r.id, createdAt := r.created_at.getD now, items := []
    subtotal := r.subtotal.getD 0, discount := r.discount.getD 0
    taxRate := r.tax_rate.getD 0, taxAmount := r.tax_amount.getD 0
    total := r.total.getD 0, paymentMethod := r.payment_method.getD PaymentMethod.cash
    customerId := r.customer_id, customerSnapshot := none, notes := r.notes }

/-- Pull reconstruction of a sale item. -/
def itemOfRow (r : ItemRow) : SaleItem :=
  { id := r.id, productId := r.product_id, variantId := r.variant_id
    sku := r.sku.getD "", name := r.name.getD "", size := r.size
    color := r.color, qty := r.qty.getD 0, price := r.price.getD 0 }

/-- The child-attachment loop of pull (`byProd` / `saleMap` in the
source): walk the child rows in order and append each converted child
to the parent whose id equals the row's foreign key; rows whose parent
is missing are silently dropped.  (The source indexes parents by id in
a record, which coincides with this map when parent ids are unique —
the hypothesis under which the round-trip theorem is stated.) -/
def attachAll (pid : β → String) (gid : α → String) (add : α → β → α)
    (parents : List α) (rows : List β) : List α :=
  rows.foldl (fun acc r => acc.map (fun p => if gid p == pid r then add p r else p)) parents

/-- Appending one pulled variant to a product. -/
def addVariant (p : Product) (r : VarRow) : Product :=
  { p with variants := p.variants ++ [varOfRow r] }

/-- Appending one pulled item to a sale. -/
def addItem (s : Sale) (r : ItemRow) : Sale :=
  { s with items := s.items ++ [itemOfRow r] }

/-- Source `cloudSync` in the `pull` direction: convert all five row
sets, attach variants to products and items to sales by foreign key,
and return the wholesale replacement state. -/
def cloudPull (store : RemoteStore) (now : String) : LocalData :=
  { products := attachAll VarRow.product_id Product.id addVariant
      (store.products.map prodOfRow) store.product_variants
    customers := store.customers.map custOfRow
    sales := attachAll ItemRow.sale_id Sale.id addItem
      (store.sales.map (saleOfRow now)) store.sale_items }

/-- A sale with its customer snapshot erased (what survives a push/pull
round trip). -/
def eraseSnapshot (s : Sale) : Sale :=
  { s with customerSnapshot := none }

/-! ### Helper lemmas -/

theorem foldl_add_eq_sum (f : α → Rat) (l : List α) (a : Rat) :
    l.foldl (fun s x => s + f x) a = a + (l.map f).sum := by
  induction l generalizing a with
  | nil => simp
  | cons x xs ih => simp [List.foldl_cons, ih (a + f x)]; ring

/-! ### Concrete fixtures for witnesses and counterexamples -/

/-- The spec's worked money example: one line at unit price 500, qty 2. -/
def exLine : CartItem :=
  { key := "k1", productId := "p1", variantId := none, display := "Tee"
    unitPrice := 500, qty := 2, sku := "TEE-001", size := none, color := none }

/-- C2: for all non-negative inputs the calculator returns
`subtotal = Σ unitPrice*qty` and
`total = max 0 (subtotal - discount) * (1 + taxRate/100)`; on the
spec's example line (500 × 2, discount 100, tax 13%) it returns
subtotal 1000, discounted 900, tax 117, total 1017. -/
theorem cartTotals_spec :
    (∀ (cart : List CartItem) (discount taxRate : Rat),
      (∀ it ∈ cart, 0 ≤ it.unitPrice ∧ 0 ≤ it.qty) → 0 ≤ discount → 0 ≤ taxRate →
      (cartTotals cart discount taxRate).subtotal
          = (cart.map (fun it => it.unitPrice * (it.qty : Rat))).sum ∧
      (cartTotals cart discount taxRate).total
          = max 0 ((cart.map (fun it => it.unitPrice * (it.qty : Rat))).sum - discount)
            * (1 + taxRate / 100)) ∧
    cartTotals [exLine] 100 13 = ⟨1000, 900, 117, 1017⟩ := by
  constructor
  · intro cart discount taxRate _ _ _
    constructor
    · simp [cartTotals, foldl_add_eq_sum]
    · simp only [cartTotals, foldl_add_eq_sum, zero_add]
      generalize max 0 ((cart.map fun it => it.unitPrice * (it.qty : Rat)).sum - discount) = m
      ring
  · simp only [cartTotals, exLine, List.foldl_cons, List.foldl_nil]
    norm_num [Totals.mk.injEq]

/-- C2 witness: the universal part instantiated at the example cart. -/
theorem cartTotals_spec_witness :
    (cartTotals [exLine] 100 13).subtotal
        = ([exLine].map (fun it => it.unitPrice * (it.qty : Rat))).sum ∧
    (cartTotals [exLine] 100 13).total
        = max 0 (([exLine].map (fun it => it.unitPrice * (it.qty : Rat))).sum - 100)
          * (1 + (13 : Rat) / 100) :=
  cartTotals_spec.1 [exLine] 100 13
    (by
      intro it h
      simp only [List.mem_singleton] at h
      subst h
      constructor <;> norm_num [exLine])
    (by norm_num) (by norm_num)

/-- A minimal prior sale used to exercise the invoice sequence. -/
def priorSale (n : String) : Sale :=
  { id := n, createdAt := "2025-06-01T00:00:00", items := [], subtotal := 0
    discount := 0, taxRate := 0, taxAmount := 0, total := 0
    paymentMethod := PaymentMethod.cash, customerId := none
    customerSnapshot := none, notes := none }

/-- C5: the invoice id is `"INV-" ++ YY ++ MM ++ "-" ++ seq` with the
two-digit zero-padded year and month and the count of prior sales plus
one zero-padded to four digits; with 3 prior sales on 2025-06-15 it is
`INV-2506-0004`. -/
theorem generateInvoiceId_spec :
    (∀ (year month : Nat) (sales : List Sale),
      generateInvoiceId year month sales
        = "INV-" ++ padStart (Nat.repr (year % 100)) 2 '0'
          ++ padStart (Nat.repr month) 2 '0'
          ++ "-" ++ padStart (Nat.repr (sales.length + 1)) 4 '0') ∧
    generateInvoiceId 2025 6 [priorSale ("a"), priorSale ("b"), priorSale ("c")]
      = "INV-2506-0004" := by
  constructor
  · intro year month sales
    rfl
  · rfl

/-- A checkout state with an empty cart (for the C7 witness). -/
def emptyCartState : CheckoutState :=
  { products := [], sales := [], cart := [], cartDiscount := 0, cartTaxRate := 0 }

/-- C7: checkout over an empty cart fails with the dedicated
empty-cart error — which is distinct from every stock error — and
leaves the catalog, the sale history and the cart unchanged. -/
theorem checkout_emptyCart :
    ∀ (st : CheckoutState) (customers : List Customer) (year month : Nat)
      (now : String) (uuidOf : Nat → String) (payment : PaymentMethod)
      (customerId : Option String) (taxDefault : Rat),
      st.cart = [] →
      runCheckout st customers year month now uuidOf payment customerId taxDefault
          = (st, some CheckoutError.emptyCart) ∧
      ∀ n sz c a, CheckoutError.emptyCart ≠ CheckoutError.stock n sz c a := by
  intro st customers year month now uuidOf payment customerId taxDefault h
  constructor
  · simp [runCheckout, checkout, h]
  · intro n sz c a hc
    exact CheckoutError.noConfusion hc

/-- C7 witness: the theorem applied to a concrete empty-cart state. -/
theorem checkout_emptyCart_witness :
    runCheckout emptyCartState [] 2025 6 ("T") (fun _ => "u") PaymentMethod.cash none 0
        = (emptyCartState, some CheckoutError.emptyCart) :=
  (checkout_emptyCart emptyCartState [] 2025 6 ("T") (fun _ => "u")
    PaymentMethod.cash none 0 rfl).1

/-- C9: import replaces local state field by field, each top-level
field independently optional — a present field wholesale replaces the
matching collection, an absent field leaves it untouched. -/
theorem importApply_fields :
    ∀ (doc : ImportDoc) (st : LocalState),
      (doc.settings = none → (importApply doc st).settings = st.settings) ∧
      (∀ x, doc.settings = some x → (importApply doc st).settings = x) ∧
      (doc.products = none → (importApply doc st).products = st.products) ∧
      (∀ x, doc.products = some x → (importApply doc st).products = x) ∧
      (doc.customers = none → (importApply doc st).customers = st.customers) ∧
      (∀ x, doc.customers = some x → (importApply doc st).customers = x) ∧
      (doc.sales = none → (importApply doc st).sales = st.sales) ∧
      (∀ x, doc.sales = some x → (importApply doc st).sales = x) := by
  intro doc st
  refine ⟨?_, ?_, ?_, ?_, ?_, ?_, ?_, ?_⟩ <;>
    first
      | (intro h; simp [importApply, h])
      | (intro x h; simp [importApply, h])

/-- A size-M black variant with 3 in stock (spec's stock example). -/
def exVariant : Variant :=
  { id := "v1", size := "M", color := "Black", stock := 3, price := none }

/-- A one-product catalog entry used by import and sync fixtures. -/
def exProduct : Product :=
  { id := "p1", name := "Tee", sku := "TEE-001", category := some "tops"
    cost := 200, price := 500, variants := [exVariant]
    notes := none, imageUrl := none }

/-- A local state with some sales history (for the C9 witness). -/
def exLocalState : LocalState :=
  { settings :=
      { storeName := "ClothKeep Store", currency := "NPR", taxRateDefault := 0
        lowStockThreshold := 5, supabaseUrl := none, supabaseAnonKey := none }
    products := [], customers := []
    sales := [priorSale ("s1")] }

/-- An import document carrying only `products` (no `sales` field). -/
def exImportDoc : ImportDoc :=
  { settings := none, products := some [exProduct], customers := none
    sales := none }

/-- C9 witness: a document missing `sales` leaves sales untouched while
its `products` field replaces the catalog wholesale. -/
theorem importApply_fields_witness :
    (importApply exImportDoc exLocalState).sales = exLocalState.sales ∧
    (importApply exImportDoc exLocalState).products = [exProduct] :=
  ⟨(importApply_fields exImportDoc exLocalState).2.2.2.2.2.2.1 rfl,
   (importApply_fields exImportDoc exLocalState).2.2.2.1 [exProduct] rfl⟩

/-- If some cart line resolves to a product and variant with
insufficient stock, the validation loop reports a stock error built
from such a line. -/
theorem firstStockError_of_exists (ps : List Product) (cart : List CartItem)
    (h : ∃ it ∈ cart, ∃ p v,
      ps.find? (fun pp => pp.id == it.productId) = some p ∧
      p.variants.find? (fun vv => some vv.id == it.variantId) = some v ∧
      v.stock < it.qty) :
    ∃ it ∈ cart, ∃ p v,
      ps.find? (fun pp => pp.id == it.productId) = some p ∧
      p.variants.find? (fun vv => some vv.id == it.variantId) = some v ∧
      v.stock < it.qty ∧
      firstStockError ps cart
        = some (CheckoutError.stock p.name v.size v.color v.stock) := by
  induction cart with
  | nil => rcases h with ⟨it, hmem, _⟩; cases hmem
  | cons hd rest ih =>
    rcases h with ⟨it, hmem, p, v, hfp, hfv, hlt⟩
    rcases List.mem_cons.mp hmem with heq | hmem2
    · subst heq
      refine ⟨it, List.mem_cons_self _ _, p, v, hfp, hfv, hlt, ?_⟩
      simp [firstStockError, hfp, hfv, hlt]
    · by_cases hhd : ∃ p2 v2,
        ps.find? (fun pp => pp.id == hd.productId) = some p2 ∧
        p2.variants.find? (fun vv => some vv.id == hd.variantId) = some v2 ∧
        v2.stock < hd.qty
      · rcases hhd with ⟨p2, v2, hp2, hv2, hlt2⟩
        refine ⟨hd, List.mem_cons_self _ _, p2, v2, hp2, hv2, hlt2, ?_⟩
        simp [firstStockError, hp2, hv2, hlt2]
      · rcases ih ⟨it, hmem2, p, v, hfp, hfv, hlt⟩ with
          ⟨it3, hmem3, p3, v3, hp3, hv3, hlt3, hrest⟩
        refine ⟨it3, List.mem_cons_of_mem _ hmem3, p3, v3, hp3, hv3, hlt3, ?_⟩
        cases hp : ps.find? (fun pp => pp.id == hd.productId) with
        | none => simpa [firstStockError, hp] using hrest
        | some p2 =>
          cases hv : p2.variants.find? (fun vv => some vv.id == hd.variantId) with
          | none => simpa [firstStockError, hp, hv] using hrest
          | some v2 =>
            have hnlt : ¬v2.stock < hd.qty := fun hlt2 => hhd ⟨p2, v2, hp, hv, hlt2⟩
            simpa [firstStockError, hp, hv, hnlt] using hrest

/-- C1: when some cart line's quantity exceeds the stock of the
product/variant it resolves to, checkout aborts with a stock error
naming such a product, variant and its available quantity, and the
whole state — catalog stock, sale history, cart, discount and tax
rate — is left exactly as it was. -/
theorem checkout_stock_atomic :
    ∀ (st : CheckoutState) (customers : List Customer) (year month : Nat)
      (now : String) (uuidOf : Nat → String) (payment : PaymentMethod)
      (customerId : Option String) (taxDefault : Rat),
      (∃ it ∈ st.cart, ∃ p v,
        st.products.find? (fun pp => pp.id == it.productId) = some p ∧
        p.variants.find? (fun vv => some vv.id == it.variantId) = some v ∧
        v.stock < it.qty) →
      ∃ it ∈ st.cart, ∃ p v,
        st.products.find? (fun pp => pp.id == it.productId) = some p ∧
        p.variants.find? (fun vv => some vv.id == it.variantId) = some v ∧
        v.stock < it.qty ∧
        runCheckout st customers year month now uuidOf payment customerId taxDefault
          = (st, some (CheckoutError.stock p.name v.size v.color v.stock)) := by
  intro st customers year month now uuidOf payment customerId taxDefault h
  rcases firstStockError_of_exists st.products st.cart h with
    ⟨it, hmem, p, v, hp, hv, hlt, herr⟩
  refine ⟨it, hmem, p, v, hp, hv, hlt, ?_⟩
  have hne : st.cart ≠ [] := by
    intro hnil
    rw [hnil] at hmem
    cases hmem
  have hemp : st.cart.isEmpty = false := by
    simpa [List.isEmpty_iff] using hne
  simp [runCheckout, checkout, hemp, herr]

/-- A cart line asking for 5 units of the 3-in-stock example variant. -/
def overdraftLine : CartItem :=
  { key := "k1", productId := "p1", variantId := some "v1", display := "Tee (M/Black)"
    unitPrice := 500, qty := 5, sku := "TEE-001-M-Black"
    size := some "M", color := some "Black" }

/-- The checkout state for the C1 witness: catalog stock 3, request 5. -/
def overdraftState : CheckoutState :=
  { products := [exProduct], sales := [], cart := [overdraftLine]
    cartDiscount := 0, cartTaxRate := 0 }

/-- C1 witness: variant stock 3, requested quantity 5 — checkout fails
with a stock error naming availability 3 and the state is unchanged. -/
theorem checkout_stock_atomic_witness :
    ∃ it ∈ overdraftState.cart, ∃ p v,
      overdraftState.products.find? (fun pp => pp.id == it.productId) = some p ∧
      p.variants.find? (fun vv => some vv.id == it.variantId) = some v ∧
      v.stock < it.qty ∧
      runCheckout overdraftState [] 2025 6 ("T") (fun _ => "u") PaymentMethod.cash none 0
        = (overdraftState, some (CheckoutError.stock p.name v.size v.color v.stock)) :=
  checkout_stock_atomic overdraftState [] 2025 6 ("T") (fun _ => "u")
    PaymentMethod.cash none 0
    ⟨overdraftLine, List.mem_singleton.mpr rfl, exProduct, exVariant,
      by decide, by decide, by decide⟩

/-- The only variant of the hijacking product below. -/
def hijackVariant : Variant :=
  { id := "w1", size := "S", color := "Red", stock := 1, price := none }

/-- A product whose *bare* SKU happens to spell another product's
composite SKU. -/
def hijackProduct : Product :=
  { id := "a1", name := "Odd", sku := "X-M-Red", category := none
    cost := 0, price := 10, variants := [hijackVariant]
    notes := none, imageUrl := none }

/-- The variant whose composite SKU is `X-M-Red`. -/
def exactVariant : Variant :=
  { id := "u1", size := "M", color := "Red", stock := 5, price := none }

/-- The product owning `exactVariant`, with bare SKU `X`. -/
def exactProduct : Product :=
  { id := "b1", name := "Base", sku := "X", category := none
    cost := 0, price := 20, variants := [exactVariant]
    notes := none, imageUrl := none }

/-- The two-product catalog on which composite resolution is hijacked. -/
def hijackCatalog : List Product := [hijackProduct, exactProduct]

/-- C6 counterexample: `X-M-Red` is the composite SKU of an existing
variant (`exactVariant` of `exactProduct`), yet `addToCartBySku` adds a
line for a different variant — the first variant of the earlier product
whose bare SKU spells the same string — so a composite match does not
always yield exactly that variant. -/
theorem addToCartBySku_hijack :
    compositeSku exactProduct exactVariant = "X-M-Red" ∧
    exactProduct ∈ hijackCatalog ∧
    exactVariant ∈ exactProduct.variants ∧
    addToCartBySku hijackCatalog [] ("k") ("X-M-Red")
      = Except.ok [mkCartLine ("k") hijackProduct (some hijackVariant)] ∧
    (mkCartLine ("k") hijackProduct (some hijackVariant)).variantId
      ≠ some exactVariant.id := by
  refine ⟨by decide, by decide, by decide, by rfl, by decide⟩

/-- C6 (amended): `addToCartBySku` picks the *first* product whose bare
SKU or some variant composite matches.  Within that product the first
exact composite match wins; with a bare-SKU match and no composite
match the product's first variant (if any) is used; and with no match
at all it signals not-found and leaves the cart unchanged. -/
theorem addToCartBySku_resolution :
    ∀ (ps : List Product) (cart : List CartItem) (key sku : String),
      ((∀ p ∈ ps, skuMatches p sku = false) →
        addToCartBySku ps cart key sku = Except.error ("SKU not found") ∧
        addToCartBySkuState ps cart key sku = cart) ∧
      (∀ pre p post vpre v vpost,
        ps = pre ++ p :: post →
        (∀ q ∈ pre, skuMatches q sku = false) →
        p.variants = vpre ++ v :: vpost →
        compositeSku p v = sku →
        (∀ u ∈ vpre, compositeSku p u ≠ sku) →
        addToCartBySku ps cart key sku
          = Except.ok (cart ++ [mkCartLine key p (some v)])) ∧
      (∀ pre p post,
        ps = pre ++ p :: post →
        (∀ q ∈ pre, skuMatches q sku = false) →
        p.sku = sku →
        (∀ u ∈ p.variants, compositeSku p u ≠ sku) →
        addToCartBySku ps cart key sku
          = Except.ok (cart ++ [mkCartLine key p p.variants.head?])) := by
  intro ps cart key sku
  refine ⟨?_, ?_, ?_⟩
  · intro h
    have hnone : ps.find? (fun p => skuMatches p sku) = none :=
      List.find?_eq_none.mpr (fun p hp => by simp [h p hp])
    constructor
    · simp [addToCartBySku, hnone]
    · simp [addToCartBySkuState, addToCartBySku, hnone]
  · intro pre p post vpre v vpost hps hpre hvar hcomp hvpre
    subst hps
    have hprenone : pre.find? (fun q => skuMatches q sku) = none :=
      List.find?_eq_none.mpr (fun q hq => by simp [hpre q hq])
    have hmatch : skuMatches p sku = true := by
      have hvmem : v ∈ p.variants := by
        rw [hvar]; exact List.mem_append_right _ (List.mem_cons_self _ _)
      simp only [skuMatches, Bool.or_eq_true, List.any_eq_true]
      exact Or.inr ⟨v, hvmem, by simp [hcomp]⟩
    have hfind : (pre ++ p :: post).find? (fun q => skuMatches q sku) = some p := by
      rw [List.find?_append, hprenone, Option.none_or]
      simp [List.find?_cons, hmatch]
    have hvprenone : vpre.find? (fun vv => compositeSku p vv == sku) = none :=
      List.find?_eq_none.mpr (fun u hu => by simp [hvpre u hu])
    have hvfind : p.variants.find? (fun vv => compositeSku p vv == sku) = some v := by
      rw [hvar, List.find?_append, hvprenone, Option.none_or]
      simp [List.find?_cons, hcomp]
    have hnonempty : p.variants.isEmpty = false := by
      rw [hvar]
      cases vpre <;> simp
    simp [addToCartBySku, hfind, hnonempty, hvfind]
  · intro pre p post hps hpre hsku hnocomp
    subst hps
    have hprenone : pre.find? (fun q => skuMatches q sku) = none :=
      List.find?_eq_none.mpr (fun q hq => by simp [hpre q hq])
    have hmatch : skuMatches p sku = true := by
      simp [skuMatches, hsku]
    have hfind : (pre ++ p :: post).find? (fun q => skuMatches q sku) = some p := by
      rw [List.find?_append, hprenone, Option.none_or]
      simp [List.find?_cons, hmatch]
    have hvnone : p.variants.find? (fun vv => compositeSku p vv == sku) = none :=
      List.find?_eq_none.mpr (fun u hu => by simp [hnocomp u hu])
    cases hv : p.variants with
    | nil => simp [addToCartBySku, hfind, hv]
    | cons v0 rest =>
      have hvnone2 := hvnone
      rw [hv] at hvnone2
      simp [addToCartBySku, hfind, hv, hvnone2]

/-- C6 witness: the spec's examples — `TEE-001-M-Black` resolves to the
exact M/Black variant of product `TEE-001`, and `UNKNOWN` signals
not-found with the cart untouched. -/
theorem addToCartBySku_resolution_witness :
    addToCartBySku [exProduct] [] ("k") ("TEE-001-M-Black")
      = Except.ok [mkCartLine ("k") exProduct (some exVariant)] ∧
    addToCartBySku [exProduct] [] ("k") ("UNKNOWN")
      = Except.error ("SKU not found") ∧
    addToCartBySkuState [exProduct] [] ("k") ("UNKNOWN") = [] := by
  refine ⟨?_, ?_, ?_⟩
  · have h := (addToCartBySku_resolution [exProduct] [] ("k") ("TEE-001-M-Black")).2.1
      [] exProduct [] [] exVariant [] (by simp [exProduct])
      (by intro q hq; cases hq) (by simp [exProduct]) (by decide)
      (by intro u hu; cases hu)
    simpa using h
  · exact ((addToCartBySku_resolution [exProduct] [] ("k") ("UNKNOWN")).1
      (by decide)).1
  · exact ((addToCartBySku_resolution [exProduct] [] ("k") ("UNKNOWN")).1
      (by decide)).2

/-- A remote sale row (fully populated) for the C8 counterexample. -/
def sparseSaleRow : SaleRow :=
  { id := "s1", created_at := some "2025-06-15T10:00:00", subtotal := some 0
    discount := some 0, tax_rate := some 0, tax_amount := some 0
    total := some 0, payment_method := some PaymentMethod.cash
    customer_id := none, notes := none }

/-- A remote sale-item row whose `size` column is null. -/
def sparseItemRow : ItemRow :=
  { id := "i1", sale_id := "s1", product_id := "p1", variant_id := none
    sku := some "TEE-001", name := some "Tee", size := none, color := none
    qty := some 1, price := some 500 }

/-- A remote store holding one sale with one partially-null item row. -/
def sparseStore : RemoteStore :=
  { products := [], product_variants := [], customers := []
    sales := [sparseSaleRow], sale_items := [sparseItemRow] }

/-- C8 counterexample: the pulled sale item reconstructed from a row
with a null `size` column carries `none`, not the empty string — so not
every string field of every reconstructed entity defaults to `""`. -/
theorem pullDefaults_size_counterexample :
    sparseItemRow.size = none ∧
    (cloudPull sparseStore ("T")).sales.map (fun s => s.items.map (fun it => it.size))
      = [[none]] ∧
    ([[(none : Option String)]] : List (List (Option String))) ≠ [[some ""]] := by
  refine ⟨rfl, by rfl, by decide⟩

/-- C8 (amended): during pull the enumerated numeric fields (product
cost/price, variant stock, sale money fields, item qty/price) coerce a
missing value to 0, and among string fields exactly variant size/color
and item sku/name default to the empty string; optional string fields
(item size/color, product category/notes, customer contact fields) are
carried over as-is possibly absent, a missing `created_at` defaults to
the pull time, and a missing payment method to `cash`. -/
theorem pullDefaults :
    ∀ (pr : ProdRow) (vr : VarRow) (cr : CustRow) (sr : SaleRow) (ir : ItemRow)
      (now : String),
      (pr.cost = none → (prodOfRow pr).cost = 0) ∧
      (pr.price = none → (prodOfRow pr).price = 0) ∧
      (vr.stock = none → (varOfRow vr).stock = 0) ∧
      (sr.subtotal = none → (saleOfRow now sr).subtotal = 0) ∧
      (sr.discount = none → (saleOfRow now sr).discount = 0) ∧
      (sr.tax_rate = none → (saleOfRow now sr).taxRate = 0) ∧
      (sr.tax_amount = none → (saleOfRow now sr).taxAmount = 0) ∧
      (sr.total = none → (saleOfRow now sr).total = 0) ∧
      (ir.qty = none → (itemOfRow ir).qty = 0) ∧
      (ir.price = none → (itemOfRow ir).price = 0) ∧
      (vr.size = none → (varOfRow vr).size = "") ∧
      (vr.color = none → (varOfRow vr).color = "") ∧
      (ir.sku = none → (itemOfRow ir).sku = "") ∧
      (ir.name = none → (itemOfRow ir).name = "") ∧
      (sr.created_at = none → (saleOfRow now sr).createdAt = now) ∧
      (sr.payment_method = none → (saleOfRow now sr).paymentMethod = PaymentMethod.cash) ∧
      (itemOfRow ir).size = ir.size ∧
      (itemOfRow ir).color = ir.color ∧
      (prodOfRow pr).category = pr.category ∧
      (prodOfRow pr).notes = pr.notes ∧
      (prodOfRow pr).name = pr.name ∧
      (custOfRow cr).name = cr.name ∧
      (custOfRow cr).phone = cr.phone ∧
      (varOfRow vr).price = vr.price := by
  intro pr vr cr sr ir now
  refine ⟨?_, ?_, ?_, ?_, ?_, ?_, ?_, ?_, ?_, ?_, ?_, ?_, ?_, ?_, ?_, ?_,
    ?_, ?_, ?_, ?_, ?_, ?_, ?_, ?_⟩ <;>
    first
      | rfl
      | (intro h; simp [prodOfRow, varOfRow, custOfRow, saleOfRow, itemOfRow, h])

/-- An all-null product row. -/
def noneProdRow : ProdRow :=
  { id := "p1", name := "N", sku := "S", category := none, cost := none
    price := none, notes := none, image_url := none }

/-- An all-null variant row. -/
def noneVarRow : VarRow :=
  { id := "v1", product_id := "p1", size := none, color := none
    stock := none, price := none }

/-- A bare customer row. -/
def noneCustRow : CustRow :=
  { id := "c1", name := "C", phone := none, email := none, notes := none }

/-- An all-null sale row. -/
def noneSaleRow : SaleRow :=
  { id := "s1", created_at := none, subtotal := none, discount := none
    tax_rate := none, tax_amount := none, total := none
    payment_method := none, customer_id := none, notes := none }

/-- An all-null item row. -/
def noneItemRow : ItemRow :=
  { id := "i1", sale_id := "s1", product_id := "p1", variant_id := none
    sku := none, name := none, size := none, color := none, qty := none
    price := none }

/-- C8 witness: the amended defaults evaluated on all-null rows. -/
theorem pullDefaults_witness :
    (prodOfRow noneProdRow).cost = 0 ∧
    (varOfRow noneVarRow).stock = 0 ∧
    (varOfRow noneVarRow).size = "" ∧
    (itemOfRow noneItemRow).sku = "" ∧
    (saleOfRow ("T") noneSaleRow).createdAt = "T" ∧
    (itemOfRow noneItemRow).qty = 0 := by
  have h := pullDefaults noneProdRow noneVarRow noneCustRow noneSaleRow noneItemRow ("T")
  exact ⟨h.1 rfl, h.2.2.1 rfl, h.2.2.2.2.2.2.2.2.2.2.1 rfl,
    h.2.2.2.2.2.2.2.2.2.2.2.2.1 rfl,
    h.2.2.2.2.2.2.2.2.2.2.2.2.2.2.1 rfl,
    h.2.2.2.2.2.2.2.2.1 rfl⟩


/-- Resolution of a cart line against the catalog, exactly as checkout
does it: the first product with the line's id, then the variant of that
product with the line's variant id. -/
def resolveLine (ps : List Product) (l : CartItem) : Option (Product × Variant) :=
  match ps.find? (fun pp => pp.id == l.productId) with
  | none => none
  | some p =>
    match p.variants.find? (fun vv => some vv.id == l.variantId) with
    | none => none
    | some v => some (p, v)

/-- Every stock error produced by the validation loop comes from a cart
line that resolves to a product and variant with insufficient stock. -/
theorem firstStockError_some_inv (ps : List Product) (cart : List CartItem)
    (e : CheckoutError) (h : firstStockError ps cart = some e) :
    ∃ it ∈ cart, ∃ p v,
      ps.find? (fun pp => pp.id == it.productId) = some p ∧
      p.variants.find? (fun vv => some vv.id == it.variantId) = some v ∧
      v.stock < it.qty ∧
      e = CheckoutError.stock p.name v.size v.color v.stock := by
  induction cart with
  | nil => simp [firstStockError] at h
  | cons hd rest ih =>
    cases hp : ps.find? (fun pp => pp.id == hd.productId) with
    | none =>
      simp only [firstStockError, hp] at h
      rcases ih h with ⟨it, hmem, p, v, h1, h2, h3, h4⟩
      exact ⟨it, List.mem_cons_of_mem _ hmem, p, v, h1, h2, h3, h4⟩
    | some p =>
      cases hv : p.variants.find? (fun vv => some vv.id == hd.variantId) with
      | none =>
        simp only [firstStockError, hp, hv] at h
        rcases ih h with ⟨it, hmem, p2, v2, h1, h2, h3, h4⟩
        exact ⟨it, List.mem_cons_of_mem _ hmem, p2, v2, h1, h2, h3, h4⟩
      | some v =>
        by_cases hlt : v.stock < hd.qty
        · simp only [firstStockError, hp, hv, if_pos hlt] at h
          injection h with h
          exact ⟨hd, List.mem_cons_self _ _, p, v, hp, hv, hlt, h.symm⟩
        · simp only [firstStockError, hp, hv, if_neg hlt] at h
          rcases ih h with ⟨it, hmem, p2, v2, h1, h2, h3, h4⟩
          exact ⟨it, List.mem_cons_of_mem _ hmem, p2, v2, h1, h2, h3, h4⟩

/-- A cart in which no line resolves passes validation. -/
theorem firstStockError_none_of_unresolved (ps : List Product) (cart : List CartItem)
    (h : ∀ l ∈ cart, resolveLine ps l = none) :
    firstStockError ps cart = none := by
  induction cart with
  | nil => rfl
  | cons hd rest ih =>
    have hhd := h hd (List.mem_cons_self _ _)
    have hrest : firstStockError ps rest = none :=
      ih (fun l hl => h l (List.mem_cons_of_mem _ hl))
    cases hp : ps.find? (fun pp => pp.id == hd.productId) with
    | none => simp only [firstStockError, hp]; exact hrest
    | some p =>
      cases hv : p.variants.find? (fun vv => some vv.id == hd.variantId) with
      | none => simp only [firstStockError, hp, hv]; exact hrest
      | some v =>
        simp only [resolveLine, hp, hv] at hhd
        cases hhd

/-- `mkSaleItems` keeps each line's quantity, in order. -/
theorem mkSaleItems_map_qty (uuidOf : Nat → String) :
    ∀ (i : Nat) (cart : List CartItem),
      (mkSaleItems uuidOf i cart).map (fun it => it.qty)
        = cart.map (fun l => l.qty) := by
  intro i cart
  induction cart generalizing i with
  | nil => rfl
  | cons hd rest ih => simp [mkSaleItems, mkSaleItem, ih]

/-- `mkSaleItems` keeps each line's captured unit price, in order. -/
theorem mkSaleItems_map_price (uuidOf : Nat → String) :
    ∀ (i : Nat) (cart : List CartItem),
      (mkSaleItems uuidOf i cart).map (fun it => it.price)
        = cart.map (fun l => l.unitPrice) := by
  intro i cart
  induction cart generalizing i with
  | nil => rfl
  | cons hd rest ih => simp [mkSaleItems, mkSaleItem, ih]

/-- Every built sale item carries some cart line's product, variant,
quantity and price references. -/
theorem mkSaleItems_mem (uuidOf : Nat → String) :
    ∀ (i : Nat) (cart : List CartItem) (it : SaleItem),
      it ∈ mkSaleItems uuidOf i cart →
      ∃ l ∈ cart, it.productId = l.productId ∧ it.variantId = l.variantId ∧
        it.qty = l.qty ∧ it.price = l.unitPrice := by
  intro i cart
  induction cart generalizing i with
  | nil => intro it h; cases h
  | cons hd rest ih =>
    intro it h
    rcases List.mem_cons.mp h with heq | hmem
    · subst heq
      exact ⟨hd, List.mem_cons_self _ _, rfl, rfl, rfl, rfl⟩
    · rcases ih (i + 1) it hmem with ⟨l, hl, h1, h2, h3, h4⟩
      exact ⟨l, List.mem_cons_of_mem _ hl, h1, h2, h3, h4⟩

/-- When no sale item references any variant of any product that shares
its product id, the commit decrement is the identity on the catalog. -/
theorem applyDecrements_id (items : List SaleItem) (ps : List Product)
    (h : ∀ it ∈ items, ∀ q ∈ ps, it.productId = q.id →
      ∀ v ∈ q.variants, it.variantId ≠ some v.id) :
    applyDecrements items ps = ps := by
  have hmap : ∀ q ∈ ps,
      (let relatedItems := items.filter
        (fun it => it.productId == q.id && optTruthy it.variantId)
       if relatedItems.isEmpty then q
       else { q with variants := q.variants.map (fun v =>
          match relatedItems.find? (fun ri => ri.variantId == some v.id) with
          | some it => { v with stock := max 0 (v.stock - it.qty) }
          | none => v) }) = q := by
    intro q hq
    have hfind : ∀ v ∈ q.variants,
        (items.filter (fun it => it.productId == q.id && optTruthy it.variantId)).find?
          (fun ri => ri.variantId == some v.id) = none := by
      intro v hv
      apply List.find?_eq_none.mpr
      intro ri hri
      have hri2 := List.mem_filter.mp hri
      have hpid : ri.productId = q.id := by
        have hx := hri2.2
        simp only [Bool.and_eq_true, beq_iff_eq] at hx
        exact hx.1
      have hne := h ri hri2.1 q hq hpid v hv
      simp [hne]
    simp only []
    split
    · rfl
    · have hvar : q.variants.map (fun v =>
          match (items.filter (fun it => it.productId == q.id && optTruthy it.variantId)).find?
            (fun ri => ri.variantId == some v.id) with
          | some it => { v with stock := max 0 (v.stock - it.qty) }
          | none => v) = q.variants := by
        calc _ = q.variants.map id :=
              List.map_congr_left (fun v hv => by rw [hfind v hv]; rfl)
          _ = q.variants := List.map_id q.variants
      rw [hvar]
  calc applyDecrements items ps = ps.map id := by
        apply List.map_congr_left
        intro q hq
        exact hmap q hq
    _ = ps := List.map_id ps


/-- Total quantity of the sale items that reference product `pid` and
variant `vid`. -/
def soldQtyItems (pid vid : String) (items : List SaleItem) : Int :=
  ((items.filter (fun it => it.productId == pid && it.variantId == some vid)).map
    (fun it => it.qty)).sum

/-- Total quantity sold for product `pid` / variant `vid` across a sale
history. -/
def soldQtySales (pid vid : String) (sales : List Sale) : Int :=
  (sales.map (fun s => soldQtyItems pid vid s.items)).sum

/-- The catalog with every variant's stock lowered by the quantities
the sale history sold for it — the spec's
`stock = initialStock - Σ(quantities sold)` invariant as a function. -/
def decAll (ps : List Product) (sales : List Sale) : List Product :=
  ps.map (fun p =>
    { p with variants := p.variants.map (fun v =>
        { v with stock := v.stock - soldQtySales p.id v.id sales }) })

/-- No two cart lines reference the same variant (lines without a
variant reference are unconstrained). -/
def noDupVariantRefs : List CartItem → Bool
  | [] => true
  | l :: rest =>
    (l.variantId == none || rest.all (fun r => r.variantId != l.variantId)) &&
      noDupVariantRefs rest

/-- Catalog well-formedness: product ids unique, variant ids unique
within each product, and variant ids non-empty (as the source's uuids
always are). -/
def wellFormedCatalog (ps : List Product) : Prop :=
  (ps.map Product.id).Nodup ∧
  (∀ p ∈ ps, (p.variants.map Variant.id).Nodup) ∧
  (∀ p ∈ ps, ∀ v ∈ p.variants, ¬v.id = "")

/-- A sequence of successful checkouts (each from the current state,
with per-step date, payment and customer), restricted to carts in which
no variant is referenced twice. -/
inductive GoodSteps (customers : List Customer) (uuidOf : Nat → String)
    (taxDefault : Rat) (st0 : CheckoutState) : CheckoutState → Prop where
  | refl : GoodSteps customers uuidOf taxDefault st0 st0
  | step (st1 st2 : CheckoutState) (year month : Nat) (now : String)
      (payment : PaymentMethod) (customerId : Option String) :
      GoodSteps customers uuidOf taxDefault st0 st1 →
      noDupVariantRefs st1.cart = true →
      checkout st1 customers year month now uuidOf payment customerId taxDefault
        = Except.ok st2 →
      GoodSteps customers uuidOf taxDefault st0 st2

/-- The 5-in-stock variant of the duplicate-line counterexample. -/
def dupVariant : Variant :=
  { id := "v1", size := "M", color := "Black", stock := 5, price := none }

/-- The product holding `dupVariant`. -/
def dupProduct : Product :=
  { id := "p1", name := "Tee", sku := "TEE-001", category := none
    cost := 200, price := 500, variants := [dupVariant]
    notes := none, imageUrl := none }

/-- First of two cart lines referencing the same variant, qty 2. -/
def dupLine1 : CartItem :=
  { key := "k1", productId := "p1", variantId := some "v1"
    display := "Tee (M/Black)", unitPrice := 500, qty := 2
    sku := "TEE-001-M-Black", size := some "M", color := some "Black" }

/-- Second cart line for the same variant, qty 2. -/
def dupLine2 : CartItem :=
  { key := "k2", productId := "p1", variantId := some "v1"
    display := "Tee (M/Black)", unitPrice := 500, qty := 2
    sku := "TEE-001-M-Black", size := some "M", color := some "Black" }

/-- A checkout state whose cart holds the same variant on two lines. -/
def dupState : CheckoutState :=
  { products := [dupProduct], sales := [], cart := [dupLine1, dupLine2]
    cartDiscount := 0, cartTaxRate := 0 }

/-- The result of checking out the duplicate-line cart. -/
def dupResult : CheckoutState × Option CheckoutError :=
  runCheckout dupState [] 2025 6 ("T") (fun _ => "u") PaymentMethod.cash none 0

/-- C3 counterexample: with variant stock 5 and two cart lines of qty 2
for that same variant, checkout succeeds and the recorded sale carries
4 units, but the stock drops only to 3 (the commit decrements each
variant by the *first* matching sale item only), not to 5 - 4 = 1. -/
theorem checkout_dup_variant_counterexample :
    dupResult.2 = none ∧
    dupResult.1.products.map (fun p => p.variants.map (fun v => v.stock)) = [[3]] ∧
    soldQtySales ("p1") ("v1") dupResult.1.sales = 4 ∧
    (3 : Int) ≠ 5 - 4 := by
  refine ⟨by decide, by decide, by decide, by decide⟩

theorem find?_filter_comm (l : List α) (p q : α → Bool) :
    (l.filter p).find? q = l.find? (fun a => p a && q a) := by
  induction l with
  | nil => rfl
  | cons a t ih =>
    by_cases hp : p a = true
    · by_cases hq : q a = true
      · rw [List.filter_cons_of_pos hp, List.find?_cons_of_pos _ hq,
          @List.find?_cons_of_pos _ (fun x => p x && q x) a t (by simp [hp, hq])]
      · rw [List.filter_cons_of_pos hp, List.find?_cons_of_neg _ hq,
          @List.find?_cons_of_neg _ (fun x => p x && q x) a t (by simp [hq]), ih]
    · rw [List.filter_cons_of_neg hp,
        @List.find?_cons_of_neg _ (fun x => p x && q x) a t (by simp [hp]), ih]

theorem find?_eq_head?_filter (l : List α) (p : α → Bool) :
    l.find? p = (l.filter p).head? := by
  induction l with
  | nil => rfl
  | cons a t ih =>
    by_cases hp : p a = true
    · rw [List.find?_cons_of_pos _ hp, List.filter_cons_of_pos hp]
      rfl
    · rw [List.find?_cons_of_neg _ hp, List.filter_cons_of_neg hp, ih]

theorem find?_beq_unique (gid : α → String) (ps : List α)
    (hnd : (ps.map gid).Nodup) (p : α) (hp : p ∈ ps) :
    ps.find? (fun q => gid q == gid p) = some p := by
  induction ps with
  | nil => cases hp
  | cons a t ih =>
    rw [List.map_cons, List.nodup_cons] at hnd
    rcases List.mem_cons.mp hp with heq | hmem
    · subst heq
      exact List.find?_cons_of_pos _ (by simp)
    · have hne : ¬((fun q => gid q == gid p) a) = true := by
        simp only [beq_iff_eq]
        intro hbeq
        exact hnd.1 (hbeq ▸ List.mem_map_of_mem gid hmem)
      rw [@List.find?_cons_of_neg _ (fun q => gid q == gid p) a t hne]
      exact ih hnd.2 hmem

/-- A cart that passes validation asks no resolved variant for more
than its available stock. -/
theorem firstStockError_none_bound (ps : List Product) (cart : List CartItem)
    (h : firstStockError ps cart = none) :
    ∀ l ∈ cart, ∀ P V,
      ps.find? (fun pp => pp.id == l.productId) = some P →
      P.variants.find? (fun vv => some vv.id == l.variantId) = some V →
      l.qty ≤ V.stock := by
  induction cart with
  | nil => intro l hl; cases hl
  | cons hd rest ih =>
    intro l hl P V h1 h2
    rcases List.mem_cons.mp hl with heq | hmem
    · subst heq
      simp only [firstStockError, h1, h2] at h
      by_cases hlt : V.stock < l.qty
      · rw [if_pos hlt] at h; cases h
      · exact le_of_not_lt hlt
    · have hrest : firstStockError ps rest = none := by
        cases hp : ps.find? (fun pp => pp.id == hd.productId) with
        | none => simpa only [firstStockError, hp] using h
        | some P2 =>
          cases hv : P2.variants.find? (fun vv => some vv.id == hd.variantId) with
          | none => simpa only [firstStockError, hp, hv] using h
          | some V2 =>
            simp only [firstStockError, hp, hv] at h
            by_cases hlt : V2.stock < hd.qty
            · rw [if_pos hlt] at h; cases h
            · rwa [if_neg hlt] at h
      exact ih hrest l hmem P V h1 h2

/-- Under `noDupVariantRefs`, at most one cart line matches any given
product/variant pair. -/
theorem noDup_filter_key (cart : List CartItem)
    (h : noDupVariantRefs cart = true) (pid vid : String) :
    (cart.filter (fun l => l.productId == pid && l.variantId == some vid)).length ≤ 1 := by
  induction cart with
  | nil => simp
  | cons hd rest ih =>
    rw [noDupVariantRefs, Bool.and_eq_true] at h
    by_cases hm : ((fun l : CartItem => l.productId == pid && l.variantId == some vid) hd) = true
    · rw [@List.filter_cons_of_pos _
        (fun l : CartItem => l.productId == pid && l.variantId == some vid) hd rest hm]
      have hvid : hd.variantId = some vid := by
        have hm2 : (hd.productId == pid && hd.variantId == some vid) = true := hm
        rw [Bool.and_eq_true] at hm2
        simpa using hm2.2
      have hall : rest.all (fun r => r.variantId != hd.variantId) = true := by
        have hor := h.1
        rw [Bool.or_eq_true] at hor
        rcases hor with hnone | hall
        · rw [beq_iff_eq] at hnone
          rw [hnone] at hvid
          cases hvid
        · exact hall
      have hrestnil :
          rest.filter (fun l => l.productId == pid && l.variantId == some vid) = [] := by
        apply List.filter_eq_nil_iff.mpr
        intro r hr
        intro hpred
        rw [Bool.and_eq_true] at hpred
        have hrv : r.variantId = some vid := by simpa using hpred.2
        have hx := List.all_eq_true.mp hall r hr
        rw [hrv, hvid] at hx
        simp at hx
      rw [hrestnil]
      simp
    · rw [@List.filter_cons_of_neg _
        (fun l : CartItem => l.productId == pid && l.variantId == some vid) hd rest hm]
      exact ih h.2

/-- The sale items built from a cart match, line for line, the cart
lines with the same product/variant reference; in particular the sold
quantities for any pair agree. -/
theorem mkSaleItems_filter_map_qty (uuidOf : Nat → String) :
    ∀ (i : Nat) (cart : List CartItem) (pid vid : String),
      ((mkSaleItems uuidOf i cart).filter
        (fun it => it.productId == pid && it.variantId == some vid)).map (fun it => it.qty)
      = (cart.filter (fun l => l.productId == pid && l.variantId == some vid)).map
          (fun l => l.qty) := by
  intro i cart
  induction cart generalizing i with
  | nil => intro pid vid; rfl
  | cons hd rest ih =>
    intro pid vid
    by_cases hm : ((fun l : CartItem => l.productId == pid && l.variantId == some vid) hd) = true
    · have hmI : ((fun it : SaleItem => it.productId == pid && it.variantId == some vid)
          (mkSaleItem (uuidOf i) hd)) = true := hm
      rw [mkSaleItems, @List.filter_cons_of_pos _
          (fun it : SaleItem => it.productId == pid && it.variantId == some vid)
          (mkSaleItem (uuidOf i) hd) (mkSaleItems uuidOf (i + 1) rest) hmI,
        @List.filter_cons_of_pos _
          (fun l : CartItem => l.productId == pid && l.variantId == some vid) hd rest hm]
      simp only [List.map_cons]
      rw [ih (i + 1) pid vid]
      rfl
    · have hmI : ¬((fun it : SaleItem => it.productId == pid && it.variantId == some vid)
          (mkSaleItem (uuidOf i) hd)) = true := hm
      rw [mkSaleItems, @List.filter_cons_of_neg _
          (fun it : SaleItem => it.productId == pid && it.variantId == some vid)
          (mkSaleItem (uuidOf i) hd) (mkSaleItems uuidOf (i + 1) rest) hmI,
        @List.filter_cons_of_neg _
          (fun l : CartItem => l.productId == pid && l.variantId == some vid) hd rest hm]
      exact ih (i + 1) pid vid

/-- An empty sale history decrements nothing. -/
theorem decAll_nil (ps : List Product) : decAll ps [] = ps := by
  unfold decAll
  calc ps.map _ = ps.map id := by
        apply List.map_congr_left
        intro p _
        have hvv : p.variants.map (fun v =>
            { v with stock := v.stock - soldQtySales p.id v.id [] }) = p.variants := by
          calc _ = p.variants.map id := by
                apply List.map_congr_left
                intro v _
                show Variant.mk v.id v.size v.color
                  (v.stock - soldQtySales p.id v.id []) v.price = v
                have hz : soldQtySales p.id v.id [] = 0 := rfl
                rw [hz, sub_zero]
          _ = p.variants := List.map_id _
        show Product.mk p.id p.name p.sku p.category p.cost p.price
          (p.variants.map _) p.notes p.imageUrl = id p
        rw [hvv]
        rfl
    _ = ps := List.map_id _

/-- The `relatedItems.isEmpty` early return of the commit loop is
redundant: the decrement map is the identity on products without
related items anyway. -/
theorem applyDecrements_eq_map (items : List SaleItem) (ps : List Product) :
    applyDecrements items ps = ps.map (fun p =>
      { p with variants := p.variants.map (fun v =>
          match (items.filter (fun it => it.productId == p.id && optTruthy it.variantId)).find?
            (fun ri => ri.variantId == some v.id) with
          | some it => { v with stock := max 0 (v.stock - it.qty) }
          | none => v) }) := by
  unfold applyDecrements
  apply List.map_congr_left
  intro p _
  simp only []
  split
  · next hempt =>
    have hfil := List.isEmpty_iff.mp hempt
    rw [hfil]
    have hvv : p.variants.map (fun v =>
        match ([] : List SaleItem).find? (fun ri => ri.variantId == some v.id) with
        | some it => { v with stock := max 0 (v.stock - it.qty) }
        | none => v) = p.variants := by
      calc _ = p.variants.map id := List.map_congr_left (fun v _ => rfl)
        _ = p.variants := List.map_id _
    rw [hvv]
  · rfl

/-- The commit decrement never drives any stock below zero. -/
theorem applyDecrements_nonneg (items : List SaleItem) (ps : List Product)
    (h : ∀ p ∈ ps, ∀ v ∈ p.variants, 0 ≤ v.stock) :
    ∀ p ∈ applyDecrements items ps, ∀ v ∈ p.variants, 0 ≤ v.stock := by
  rw [applyDecrements_eq_map]
  intro p hp v hv
  rcases List.mem_map.mp hp with ⟨q, hq, rfl⟩
  simp only [] at hv
  rcases List.mem_map.mp hv with ⟨v0, hv0, rfl⟩
  cases hfind : (items.filter (fun it => it.productId == q.id && optTruthy it.variantId)).find?
      (fun ri => ri.variantId == some v0.id) with
  | some it => simp only [hfind]; exact le_max_left 0 _
  | none => simp only [hfind]; exact h q hq v0 hv0

/-- One successful restricted checkout preserves the
`stock = initial - sold` characterization of the catalog. -/
theorem checkout_step_decAll
    (ps0 : List Product) (st1 st2 : CheckoutState) (customers : List Customer)
    (year month : Nat) (now : String) (uuidOf : Nat → String)
    (payment : PaymentMethod) (customerId : Option String) (taxDefault : Rat)
    (hwf : wellFormedCatalog ps0)
    (hprod : st1.products = decAll ps0 st1.sales)
    (hpos : ∀ p ∈ st1.products, ∀ v ∈ p.variants, 0 ≤ v.stock)
    (hgood : noDupVariantRefs st1.cart = true)
    (hck : checkout st1 customers year month now uuidOf payment customerId taxDefault
      = Except.ok st2) :
    st2.products = decAll ps0 st2.sales ∧
    ∀ p ∈ st2.products, ∀ v ∈ p.variants, 0 ≤ v.stock := by
  by_cases hemp : st1.cart.isEmpty
  · simp [checkout, hemp] at hck
  · simp only [checkout, if_neg hemp] at hck
    cases hfse : firstStockError st1.products st1.cart with
    | some e => rw [hfse] at hck; cases hck
    | none =>
      rw [hfse] at hck
      injection hck with hck
      have key : ∀ (sNew : Sale), sNew.items = mkSaleItems uuidOf 0 st1.cart →
          applyDecrements (mkSaleItems uuidOf 0 st1.cart) st1.products
            = decAll ps0 (sNew :: st1.sales) := by
        intro sNew hsitems
        rw [hprod, applyDecrements_eq_map]
        unfold decAll
        rw [List.map_map]
        apply List.map_congr_left
        intro p hp
        simp only [Function.comp]
        simp only [Product.mk.injEq, true_and, and_true]
        rw [List.map_map]
        apply List.map_congr_left
        intro v hv
        simp only [Function.comp]
        have hvid : ¬v.id = "" := hwf.2.2 p hp v hv
        have hnodv : (p.variants.map Variant.id).Nodup := hwf.2.1 p hp
        rw [find?_filter_comm]
        have hpred : (fun a : SaleItem =>
            (a.productId == p.id && optTruthy a.variantId) && (a.variantId == some v.id))
            = (fun a : SaleItem => a.productId == p.id && a.variantId == some v.id) := by
          funext a
          by_cases hva : (a.variantId == some v.id) = true
          · have hvaeq : a.variantId = some v.id := by simpa using hva
            have htr : optTruthy a.variantId = true := by
              rw [hvaeq]
              simp [optTruthy, hvid]
            rw [hva, htr]
            simp
          · rw [Bool.not_eq_true] at hva
            rw [hva]
            simp
        simp only [hpred]
        rw [find?_eq_head?_filter]
        have hcorr := mkSaleItems_filter_map_qty uuidOf 0 st1.cart p.id v.id
        have hlen : (st1.cart.filter
            (fun l => l.productId == p.id && l.variantId == some v.id)).length ≤ 1 :=
          noDup_filter_key st1.cart hgood p.id v.id
        have hsoldcons : soldQtySales p.id v.id (sNew :: st1.sales)
            = soldQtyItems p.id v.id (mkSaleItems uuidOf 0 st1.cart)
              + soldQtySales p.id v.id st1.sales := by
          simp [soldQtySales, hsitems]
        cases hflt : (mkSaleItems uuidOf 0 st1.cart).filter
            (fun it => it.productId == p.id && it.variantId == some v.id) with
        | nil =>
          have hsold0 : soldQtyItems p.id v.id (mkSaleItems uuidOf 0 st1.cart) = 0 := by
            rw [soldQtyItems, hflt]
            rfl
          simp only [List.head?_nil]
          simp only [Variant.mk.injEq, true_and, and_true]
          rw [hsoldcons, hsold0]
          omega
        | cons it0 tl =>
          have htl : tl = [] := by
            have hlenf : ((mkSaleItems uuidOf 0 st1.cart).filter
                (fun it => it.productId == p.id && it.variantId == some v.id)).length ≤ 1 := by
              calc ((mkSaleItems uuidOf 0 st1.cart).filter
                    (fun it => it.productId == p.id && it.variantId == some v.id)).length
                  = (((mkSaleItems uuidOf 0 st1.cart).filter
                    (fun it => it.productId == p.id && it.variantId == some v.id)).map
                      (fun it => it.qty)).length := (List.length_map _ _).symm
                _ = ((st1.cart.filter
                    (fun l => l.productId == p.id && l.variantId == some v.id)).map
                      (fun l => l.qty)).length := by rw [hcorr]
                _ = (st1.cart.filter
                    (fun l => l.productId == p.id && l.variantId == some v.id)).length :=
                  List.length_map _ _
                _ ≤ 1 := hlen
            rw [hflt] at hlenf
            simp only [List.length_cons] at hlenf
            have : tl.length = 0 := by omega
            exact List.length_eq_zero.mp this
          subst htl
          have hit0filt : it0 ∈ (mkSaleItems uuidOf 0 st1.cart).filter
              (fun it => it.productId == p.id && it.variantId == some v.id) := by
            rw [hflt]
            exact List.mem_cons_self _ _
          have hit0 := List.mem_filter.mp hit0filt
          obtain ⟨l0, hl0, e1, e2, e3, _⟩ := mkSaleItems_mem uuidOf 0 st1.cart it0 hit0.1
          have hit0pv := hit0.2
          rw [Bool.and_eq_true] at hit0pv
          have hit0p : it0.productId = p.id := by simpa using hit0pv.1
          have hit0v : it0.variantId = some v.id := by simpa using hit0pv.2
          have hlp : l0.productId = p.id := e1 ▸ hit0p
          have hlv : l0.variantId = some v.id := e2 ▸ hit0v
          have hfp0 : ps0.find? (fun q => Product.id q == Product.id p) = some p :=
            find?_beq_unique Product.id ps0 hwf.1 p hp
          have hfindP : st1.products.find? (fun pp => pp.id == l0.productId)
              = some ((fun p2 : Product => { p2 with variants := p2.variants.map (fun v2 =>
                  { v2 with stock := v2.stock - soldQtySales p2.id v2.id st1.sales }) }) p) := by
            rw [hprod]
            unfold decAll
            rw [List.find?_map]
            have hpeq : ((fun pp : Product => pp.id == l0.productId)
                ∘ (fun p2 : Product => { p2 with variants := p2.variants.map (fun v2 =>
                  { v2 with stock := v2.stock - soldQtySales p2.id v2.id st1.sales }) }))
                = (fun q : Product => Product.id q == Product.id p) := by
              funext q
              show (q.id == l0.productId) = (q.id == p.id)
              rw [hlp]
            rw [hpeq, hfp0]
            rfl
          have hfv0 : p.variants.find? (fun q => Variant.id q == Variant.id v) = some v :=
            find?_beq_unique Variant.id p.variants hnodv v hv
          have hfindV : (p.variants.map (fun v2 : Variant =>
              { v2 with stock := v2.stock - soldQtySales p.id v2.id st1.sales })).find?
                (fun vv => some vv.id == l0.variantId)
              = some ((fun v2 : Variant =>
                  { v2 with stock := v2.stock - soldQtySales p.id v2.id st1.sales }) v) := by
            rw [List.find?_map]
            have hveq : ((fun vv : Variant => some vv.id == l0.variantId)
                ∘ (fun v2 : Variant =>
                  { v2 with stock := v2.stock - soldQtySales p.id v2.id st1.sales }))
                = (fun q : Variant => Variant.id q == Variant.id v) := by
              funext q
              show (some q.id == l0.variantId) = (q.id == v.id)
              rw [hlv]
              rfl
            rw [hveq, hfv0]
            rfl
          have hb : l0.qty ≤ v.stock - soldQtySales p.id v.id st1.sales :=
            firstStockError_none_bound st1.products st1.cart hfse l0 hl0 _ _ hfindP hfindV
          have hsold : soldQtyItems p.id v.id (mkSaleItems uuidOf 0 st1.cart) = it0.qty := by
            rw [soldQtyItems, hflt]
            simp
          simp only [List.head?_cons]
          simp only [Variant.mk.injEq, true_and, and_true]
          rw [hsoldcons, hsold]
          rw [max_eq_right (by omega)]
          omega
      constructor
      · rw [← hck]
        exact key _ rfl
      · rw [← hck]
        exact applyDecrements_nonneg _ _ hpos

/-- C3 (amended): starting from a well-formed catalog with non-negative
stocks and an empty sale history, after any sequence of successful
checkouts in which no cart references the same variant on two lines,
every variant's stock is non-negative and the catalog equals the
initial one with each variant's stock lowered by exactly the total
quantity the recorded sales sold for it. -/
theorem checkout_stock_invariant :
    ∀ (customers : List Customer) (uuidOf : Nat → String) (taxDefault : Rat)
      (st0 st : CheckoutState),
      wellFormedCatalog st0.products →
      (∀ p ∈ st0.products, ∀ v ∈ p.variants, 0 ≤ v.stock) →
      st0.sales = [] →
      GoodSteps customers uuidOf taxDefault st0 st →
      st.products = decAll st0.products st.sales ∧
      ∀ p ∈ st.products, ∀ v ∈ p.variants, 0 ≤ v.stock := by
  intro customers uuidOf taxDefault st0 st hwf hpos hsales hsteps
  induction hsteps with
  | refl =>
    constructor
    · rw [hsales, decAll_nil]
    · exact hpos
  | step st1 st2 year month now payment customerId hprev hgood hck ih =>
    rcases ih with ⟨ih1, ih2⟩
    exact checkout_step_decAll st0.products st1 st2 customers year month now
      uuidOf payment customerId taxDefault hwf ih1 ih2 hgood hck

/-- A quantity-2 cart line for the example variant (3 in stock). -/
def okLine : CartItem :=
  { key := "k1", productId := "p1", variantId := some "v1"
    display := "Tee (M/Black)", unitPrice := 500, qty := 2
    sku := "TEE-001-M-Black", size := some "M", color := some "Black" }

/-- The initial state of the C3 witness run. -/
def okState : CheckoutState :=
  { products := [exProduct], sales := [], cart := [okLine]
    cartDiscount := 0, cartTaxRate := 0 }

/-- The state after checking out `okState`. -/
def okStateAfter : CheckoutState :=
  (runCheckout okState [] 2025 6 ("T") (fun _ => "u") PaymentMethod.cash none 0).1

/-- C3 witness: one successful checkout of 2 units from stock 3 yields
a catalog equal to the initial one minus the sold quantities, with all
stocks non-negative. -/
theorem checkout_stock_invariant_witness :
    okStateAfter.products = decAll okState.products okStateAfter.sales ∧
    ∀ p ∈ okStateAfter.products, ∀ v ∈ p.variants, 0 ≤ v.stock :=
  checkout_stock_invariant [] (fun _ => "u") 0 okState okStateAfter
    ⟨by decide, by decide, by decide⟩ (by decide) rfl
    (GoodSteps.step okState okStateAfter 2025 6 ("T") PaymentMethod.cash none
      GoodSteps.refl (by decide) rfl)

/-- When `runCheckout` reports no error, `checkout` succeeded with the
state `runCheckout` returned. -/
theorem runCheckout_ok (st : CheckoutState) (customers : List Customer)
    (year month : Nat) (now : String) (uuidOf : Nat → String)
    (payment : PaymentMethod) (customerId : Option String) (taxDefault : Rat)
    (h : (runCheckout st customers year month now uuidOf payment customerId
      taxDefault).2 = none) :
    checkout st customers year month now uuidOf payment customerId taxDefault
      = Except.ok ((runCheckout st customers year month now uuidOf payment
          customerId taxDefault).1) := by
  cases hck : checkout st customers year month now uuidOf payment customerId taxDefault with
  | error e =>
    simp only [runCheckout, hck] at h
    exact (Option.some_ne_none e h).elim
  | ok st2 => simp only [runCheckout, hck]

/-- A cart line that does not resolve references no product/variant
pair of the catalog (its product is absent, or its variant id matches
no variant of the first product with its product id — the only one,
when product ids are unique). -/
theorem unresolved_no_pair (ps : List Product)
    (hnd : (ps.map Product.id).Nodup) (l : CartItem)
    (hres : resolveLine ps l = none) :
    ∀ q ∈ ps, l.productId = q.id → ∀ v ∈ q.variants, l.variantId ≠ some v.id := by
  intro q hq hpid v hv heq
  have hfp : ∃ p2, ps.find? (fun pp => pp.id == l.productId) = some p2 := by
    have hnn : ¬(ps.find? (fun pp => pp.id == l.productId) = none) := by
      intro hnone
      have hqq := List.find?_eq_none.mp hnone q hq
      rw [← hpid] at hqq
      simp at hqq
    cases hfind : ps.find? (fun pp => pp.id == l.productId) with
    | none => exact absurd hfind hnn
    | some p2 => exact ⟨p2, rfl⟩
  rcases hfp with ⟨p2, hp2find⟩
  have hp2mem : p2 ∈ ps := List.mem_of_find?_eq_some hp2find
  have hp2id : p2.id = l.productId := by
    have hx := List.find?_some hp2find
    simpa using hx
  have hq2 : p2 = q := by
    have hinj := List.inj_on_of_nodup_map hnd
    exact hinj hp2mem hq (by rw [hp2id, hpid])
  subst hq2
  simp only [resolveLine, hp2find] at hres
  cases hvfind : p2.variants.find? (fun vv => some vv.id == l.variantId) with
  | some v2 => rw [hvfind] at hres; cases hres
  | none =>
    have hxx := List.find?_eq_none.mp hvfind v hv
    rw [heq] at hxx
    simp at hxx

/-- Building sale items distributes over cart concatenation (the id
supply continues at the shifted index). -/
theorem mkSaleItems_append (uuidOf : Nat → String) :
    ∀ (i : Nat) (pre post : List CartItem),
      mkSaleItems uuidOf i (pre ++ post)
        = mkSaleItems uuidOf i pre ++ mkSaleItems uuidOf (i + pre.length) post := by
  intro i pre
  induction pre generalizing i with
  | nil => intro post; simp [mkSaleItems]
  | cons hd rest ih =>
    intro post
    show mkSaleItem (uuidOf i) hd :: mkSaleItems uuidOf (i + 1) (rest ++ post)
      = (mkSaleItem (uuidOf i) hd :: mkSaleItems uuidOf (i + 1) rest)
        ++ mkSaleItems uuidOf (i + (rest.length + 1)) post
    rw [ih (i + 1), List.cons_append]
    have harith : (i + 1) + rest.length = i + (rest.length + 1) := by omega
    rw [harith]

/-- Dropping from the committed sale items one item that references no
catalog product/variant pair leaves the commit decrement unchanged:
such an item never matches any variant lookup. -/
theorem applyDecrements_drop (ps : List Product) (it0 : SaleItem)
    (items1 items2 : List SaleItem)
    (h : ∀ q ∈ ps, it0.productId = q.id → ∀ v ∈ q.variants, it0.variantId ≠ some v.id) :
    applyDecrements (items1 ++ it0 :: items2) ps
      = applyDecrements (items1 ++ items2) ps := by
  rw [applyDecrements_eq_map, applyDecrements_eq_map]
  apply List.map_congr_left
  intro q hq
  simp only [Product.mk.injEq, true_and, and_true]
  apply List.map_congr_left
  intro v hv
  have hfind : ((items1 ++ it0 :: items2).filter
      (fun it => it.productId == q.id && optTruthy it.variantId)).find?
        (fun ri => ri.variantId == some v.id)
      = ((items1 ++ items2).filter
      (fun it => it.productId == q.id && optTruthy it.variantId)).find?
        (fun ri => ri.variantId == some v.id) := by
    rw [find?_filter_comm, find?_filter_comm]
    have hC : ((it0.productId == q.id && optTruthy it0.variantId)
        && (it0.variantId == some v.id)) = false := by
      by_cases h1 : (it0.productId == q.id) = true
      · by_cases h2 : (it0.variantId == some v.id) = true
        · exact absurd (by simpa using h2) (h q hq (by simpa using h1) v hv)
        · rw [Bool.not_eq_true] at h2
          simp [h2]
      · rw [Bool.not_eq_true] at h1
        simp [h1]
    rw [List.find?_append, List.find?_append,
      @List.find?_cons_of_neg _
        (fun a : SaleItem => (a.productId == q.id && optTruthy a.variantId)
          && (a.variantId == some v.id)) it0 items2 (by simp [hC])]
  rw [hfind]

/-- C10: checkout validates and decrements only lines that fully
resolve.  A stock error always originates from a resolved failing line
(so an unresolved line can never raise one); on any successful checkout
every cart line — resolved or stale — contributes its quantity and
captured price to the sale, in order; and for each unresolved line of a
successful mixed cart, the commit with the sale item of that line
dropped produces the very same catalog, so it changes the stock of no
variant; finally a nonempty all-unresolved cart checks out with the
catalog exactly unchanged. -/
theorem checkout_unresolved_lines :
    ∀ (st : CheckoutState) (customers : List Customer) (year month : Nat)
      (now : String) (uuidOf : Nat → String) (payment : PaymentMethod)
      (customerId : Option String) (taxDefault : Rat),
      (∀ n sz cl av,
        checkout st customers year month now uuidOf payment customerId taxDefault
            = Except.error (CheckoutError.stock n sz cl av) →
        ∃ it ∈ st.cart, ∃ p v,
          st.products.find? (fun pp => pp.id == it.productId) = some p ∧
          p.variants.find? (fun vv => some vv.id == it.variantId) = some v ∧
          v.stock < it.qty ∧ n = p.name ∧ sz = v.size ∧ cl = v.color ∧
          av = v.stock) ∧
      (∀ st2, checkout st customers year month now uuidOf payment customerId taxDefault
          = Except.ok st2 →
        ∃ s, st2.sales = s :: st.sales ∧
          s.items.map (fun it => it.qty) = st.cart.map (fun l => l.qty) ∧
          s.items.map (fun it => it.price) = st.cart.map (fun l => l.unitPrice)) ∧
      ((st.products.map Product.id).Nodup →
        ∀ st2, checkout st customers year month now uuidOf payment customerId taxDefault
            = Except.ok st2 →
        ∀ pre l post, st.cart = pre ++ l :: post →
          resolveLine st.products l = none →
          st2.products = applyDecrements
            (mkSaleItems uuidOf 0 pre ++ mkSaleItems uuidOf (pre.length + 1) post)
            st.products) ∧
      ((st.products.map Product.id).Nodup →
        st.cart ≠ [] →
        (∀ l ∈ st.cart, resolveLine st.products l = none) →
        ∃ s, checkout st customers year month now uuidOf payment customerId taxDefault
            = Except.ok
              { products := st.products, sales := s :: st.sales, cart := []
                cartDiscount := 0, cartTaxRate := taxDefault } ∧
          s.items.map (fun it => it.qty) = st.cart.map (fun l => l.qty) ∧
          s.items.map (fun it => it.price) = st.cart.map (fun l => l.unitPrice)) := by
  intro st customers year month now uuidOf payment customerId taxDefault
  refine ⟨?_, ?_, ?_, ?_⟩
  · intro n sz cl av herr
    by_cases hemp : st.cart.isEmpty
    · simp [checkout, hemp] at herr
    · simp only [checkout, if_neg hemp] at herr
      cases hfse : firstStockError st.products st.cart with
      | none => rw [hfse] at herr; cases herr
      | some e =>
        rw [hfse] at herr
        injection herr with herr
        subst herr
        rcases firstStockError_some_inv st.products st.cart _ hfse with
          ⟨it, hmem, p, v, h1, h2, h3, h4⟩
        injection h4 with e1 e2 e3 e4
        exact ⟨it, hmem, p, v, h1, h2, h3, e1, e2, e3, e4⟩
  · intro st2 hck
    by_cases hemp : st.cart.isEmpty
    · simp [checkout, hemp] at hck
    · simp only [checkout, if_neg hemp] at hck
      cases hfse : firstStockError st.products st.cart with
      | some e => rw [hfse] at hck; cases hck
      | none =>
        rw [hfse] at hck
        injection hck with hck
        subst hck
        exact ⟨_, rfl, mkSaleItems_map_qty uuidOf 0 st.cart,
          mkSaleItems_map_price uuidOf 0 st.cart⟩
  · intro hnd st2 hck pre l post hcart hres
    by_cases hemp : st.cart.isEmpty
    · simp [checkout, hemp] at hck
    · simp only [checkout, if_neg hemp] at hck
      cases hfse : firstStockError st.products st.cart with
      | some e => rw [hfse] at hck; cases hck
      | none =>
        rw [hfse] at hck
        injection hck with hck
        subst hck
        show applyDecrements (mkSaleItems uuidOf 0 st.cart) st.products
          = applyDecrements
            (mkSaleItems uuidOf 0 pre ++ mkSaleItems uuidOf (pre.length + 1) post)
            st.products
        rw [hcart, mkSaleItems_append, Nat.zero_add]
        simp only [mkSaleItems]
        exact applyDecrements_drop st.products (mkSaleItem (uuidOf pre.length) l)
          (mkSaleItems uuidOf 0 pre) (mkSaleItems uuidOf (pre.length + 1) post)
          (unresolved_no_pair st.products hnd l hres)
  · intro hnd hne hres
    have hemp : st.cart.isEmpty = false := by
      simpa [List.isEmpty_iff] using hne
    have hfse : firstStockError st.products st.cart = none :=
      firstStockError_none_of_unresolved st.products st.cart hres
    have happly : applyDecrements (mkSaleItems uuidOf 0 st.cart) st.products
        = st.products := by
      apply applyDecrements_id
      intro it hit q hq hpid v hv heq
      rcases mkSaleItems_mem uuidOf 0 st.cart it hit with ⟨l, hl, hp1, hp2, _, _⟩
      exact unresolved_no_pair st.products hnd l (hres l hl) q hq
        (hp1 ▸ hpid) v hv (hp2 ▸ heq)
    refine ⟨{ id := generateInvoiceId year month st.sales
              createdAt := now
              items := mkSaleItems uuidOf 0 st.cart
              subtotal := (cartTotals st.cart st.cartDiscount st.cartTaxRate).subtotal
              discount := st.cartDiscount
              taxRate := st.cartTaxRate
              taxAmount := (cartTotals st.cart st.cartDiscount st.cartTaxRate).taxAmount
              total := (cartTotals st.cart st.cartDiscount st.cartTaxRate).total
              paymentMethod := payment
              customerId := customerId
              customerSnapshot := match customerId with
                | some cid => customers.find? (fun c => c.id == cid)
                | none => none
              notes := none }, ?_, ?_, ?_⟩
    · simp only [checkout, hemp, Bool.false_eq_true, if_false, hfse, happly]
    · exact mkSaleItems_map_qty uuidOf 0 st.cart
    · exact mkSaleItems_map_price uuidOf 0 st.cart

/-- A cart line whose variant id `zz` matches nothing in the catalog. -/
def staleLine : CartItem :=
  { key := "k1", productId := "p1", variantId := some "zz", display := "Tee"
    unitPrice := 500, qty := 7, sku := "TEE-001", size := none, color := none }

/-- A state whose only cart line carries a stale variant id. -/
def staleState : CheckoutState :=
  { products := [exProduct], sales := [], cart := [staleLine]
    cartDiscount := 0, cartTaxRate := 0 }

/-- A mixed cart: a resolved quantity-2 line for the stocked variant
followed by a stale-variant line of quantity 7. -/
def mixedState : CheckoutState :=
  { products := [exProduct], sales := [], cart := [okLine, staleLine]
    cartDiscount := 0, cartTaxRate := 0 }

/-- The state after checking out the mixed cart. -/
def mixedAfter : CheckoutState :=
  (runCheckout mixedState [] 2025 6 ("T") (fun _ => "u") PaymentMethod.cash none 0).1

/-- C10 witness: in a cart mixing a resolved line with a stale-variant
line of quantity 7 (beyond the 3 in stock) checkout succeeds, both
lines contribute quantity and price to the sale, dropping the stale
line item from the commit yields the same catalog, and an
all-stale cart leaves the catalog exactly unchanged. -/
theorem checkout_unresolved_lines_witness :
    (∃ s, mixedAfter.sales = s :: mixedState.sales ∧
      s.items.map (fun it => it.qty) = mixedState.cart.map (fun l => l.qty) ∧
      s.items.map (fun it => it.price) = mixedState.cart.map (fun l => l.unitPrice)) ∧
    mixedAfter.products = applyDecrements
      (mkSaleItems (fun _ => "u") 0 [okLine] ++ mkSaleItems (fun _ => "u") 2 [])
      mixedState.products ∧
    (∃ s, checkout staleState [] 2025 6 ("T") (fun _ => "u") PaymentMethod.cash none 0
        = Except.ok
          { products := staleState.products, sales := s :: staleState.sales
            cart := [], cartDiscount := 0, cartTaxRate := 0 } ∧
      s.items.map (fun it => it.qty) = staleState.cart.map (fun l => l.qty) ∧
      s.items.map (fun it => it.price) = staleState.cart.map (fun l => l.unitPrice)) := by
  refine ⟨?_, ?_, ?_⟩
  · exact (checkout_unresolved_lines mixedState [] 2025 6 ("T") (fun _ => "u")
      PaymentMethod.cash none 0).2.1 mixedAfter
      (runCheckout_ok mixedState [] 2025 6 ("T") (fun _ => "u")
        PaymentMethod.cash none 0 (by decide))
  · exact (checkout_unresolved_lines mixedState [] 2025 6 ("T") (fun _ => "u")
      PaymentMethod.cash none 0).2.2.1 (by decide) mixedAfter
      (runCheckout_ok mixedState [] 2025 6 ("T") (fun _ => "u")
        PaymentMethod.cash none 0 (by decide)) [okLine] staleLine []
      rfl (by decide)
  · exact (checkout_unresolved_lines staleState [] 2025 6 ("T") (fun _ => "u")
      PaymentMethod.cash none 0).2.2.2 (by decide) (by decide) (by decide)

theorem attachAll_append (pid : β → String) (gid : α → String) (add : α → β → α)
    (ps : List α) (r1 r2 : List β) :
    attachAll pid gid add ps (r1 ++ r2)
      = attachAll pid gid add (attachAll pid gid add ps r1) r2 := by
  unfold attachAll
  rw [List.foldl_append]

theorem attachAll_head_nomatch (pid : β → String) (gid : α → String) (add : α → β → α)
    (p : α) (t : List α) (rows : List β)
    (h : ∀ r ∈ rows, ¬pid r = gid p) :
    attachAll pid gid add (p :: t) rows = p :: attachAll pid gid add t rows := by
  induction rows generalizing t with
  | nil => rfl
  | cons r rs ih =>
    have hne : (gid p == pid r) = false := by
      rw [beq_eq_false_iff_ne]
      intro he
      exact h r (List.mem_cons_self _ _) he.symm
    show attachAll pid gid add ((p :: t).map
        (fun x => if gid x == pid r then add x r else x)) rs
      = p :: attachAll pid gid add (t.map
        (fun x => if gid x == pid r then add x r else x)) rs
    rw [List.map_cons]
    simp only [hne, Bool.false_eq_true, if_false]
    exact ih _ (fun r2 hr2 => h r2 (List.mem_cons_of_mem _ hr2))

theorem attachAll_head_match (pid : β → String) (gid : α → String) (add : α → β → α)
    (p : α) (t : List α) (rows : List β)
    (hrows : ∀ r ∈ rows, pid r = gid p)
    (hgid : ∀ (q : α) (r : β), gid (add q r) = gid q)
    (ht : ∀ q ∈ t, ¬gid q = gid p) :
    attachAll pid gid add (p :: t) rows = rows.foldl add p :: t := by
  induction rows generalizing p with
  | nil => rfl
  | cons r rs ih =>
    have heq : (gid p == pid r) = true := by
      rw [beq_iff_eq, hrows r (List.mem_cons_self _ _)]
    show attachAll pid gid add ((p :: t).map
        (fun x => if gid x == pid r then add x r else x)) rs
      = (r :: rs).foldl add p :: t
    rw [List.map_cons]
    simp only [heq, if_true]
    have htmap : t.map (fun x => if gid x == pid r then add x r else x) = t := by
      calc _ = t.map id := by
            apply List.map_congr_left
            intro q hq
            have hne : (gid q == pid r) = false := by
              rw [beq_eq_false_iff_ne, hrows r (List.mem_cons_self _ _)]
              exact ht q hq
            simp only [hne, Bool.false_eq_true, if_false]
            rfl
        _ = t := List.map_id _
    rw [htmap, List.foldl_cons]
    exact ih (add p r)
      (fun r2 hr2 => (hrows r2 (List.mem_cons_of_mem _ hr2)).trans (hgid p r).symm)
      (fun q hq hgq => ht q hq (hgq.trans (hgid p r)))

theorem attachAll_flatMap (pid : β → String) (gid : α → String) (add : α → β → α)
    (rowsOf : α → List β) (clear : α → α) (ps : List α)
    (hgid_clear : ∀ p, gid (clear p) = gid p)
    (hgid_add : ∀ (q : α) (r : β), gid (add q r) = gid q)
    (hpid : ∀ p ∈ ps, ∀ r ∈ rowsOf p, pid r = gid p)
    (hround : ∀ p ∈ ps, (rowsOf p).foldl add (clear p) = p)
    (hnd : (ps.map gid).Nodup) :
    attachAll pid gid add (ps.map clear) (ps.flatMap rowsOf) = ps := by
  induction ps with
  | nil => rfl
  | cons p rest ih =>
    rw [List.map_cons, List.nodup_cons] at hnd
    rw [List.map_cons, List.flatMap_cons, attachAll_append]
    have h1 : attachAll pid gid add (clear p :: rest.map clear) (rowsOf p)
        = p :: rest.map clear := by
      rw [attachAll_head_match pid gid add (clear p) (rest.map clear) (rowsOf p)
        (fun r hr => (hpid p (List.mem_cons_self _ _) r hr).trans (hgid_clear p).symm)
        hgid_add
        (fun q hq hgq => by
          rcases List.mem_map.mp hq with ⟨q0, hq0, rfl⟩
          rw [hgid_clear q0, hgid_clear p] at hgq
          exact hnd.1 (hgq ▸ List.mem_map_of_mem gid hq0))]
      rw [hround p (List.mem_cons_self _ _)]
    rw [h1]
    have h2 : attachAll pid gid add (p :: rest.map clear) (rest.flatMap rowsOf)
        = p :: attachAll pid gid add (rest.map clear) (rest.flatMap rowsOf) := by
      apply attachAll_head_nomatch
      intro r hr
      rcases List.mem_flatMap.mp hr with ⟨q, hq, hrq⟩
      rw [hpid q (List.mem_cons_of_mem _ hq) r hrq]
      intro he
      exact hnd.1 (he ▸ List.mem_map_of_mem gid hq)
    rw [h2]
    rw [ih (fun q hq => hpid q (List.mem_cons_of_mem _ hq))
      (fun q hq => hround q (List.mem_cons_of_mem _ hq)) hnd.2]

theorem foldl_addVariant (pid : String) (vs : List Variant) (q : Product) :
    (vs.map (toVarRow pid)).foldl addVariant q = { q with variants := q.variants ++ vs } := by
  induction vs generalizing q with
  | nil =>
    show q = { q with variants := q.variants ++ [] }
    rw [List.append_nil]
  | cons v vs ih =>
    rw [List.map_cons, List.foldl_cons, ih]
    show Product.mk q.id q.name q.sku q.category q.cost q.price
        ((q.variants ++ [varOfRow (toVarRow pid v)]) ++ vs) q.notes q.imageUrl
      = Product.mk q.id q.name q.sku q.category q.cost q.price
        (q.variants ++ v :: vs) q.notes q.imageUrl
    rw [List.append_assoc, List.singleton_append]
    rfl

theorem foldl_addItem (sid : String) (its : List SaleItem) (q : Sale) :
    (its.map (toItemRow sid)).foldl addItem q = { q with items := q.items ++ its } := by
  induction its generalizing q with
  | nil =>
    show q = { q with items := q.items ++ [] }
    rw [List.append_nil]
  | cons it its ih =>
    rw [List.map_cons, List.foldl_cons, ih]
    show Sale.mk q.id q.createdAt ((q.items ++ [itemOfRow (toItemRow sid it)]) ++ its)
        q.subtotal q.discount q.taxRate q.taxAmount q.total q.paymentMethod
        q.customerId q.customerSnapshot q.notes
      = Sale.mk q.id q.createdAt (q.items ++ it :: its)
        q.subtotal q.discount q.taxRate q.taxAmount q.total q.paymentMethod
        q.customerId q.customerSnapshot q.notes
    rw [List.append_assoc, List.singleton_append]
    rfl

/-- The customer frozen into the counterexample sale. -/
def snapCustomer : Customer :=
  { id := "c1", name := "Asha", phone := some "9800000000", email := none
    notes := none }

/-- A sale carrying a customer snapshot. -/
def snapSale : Sale :=
  { id := "s1", createdAt := "2025-06-15T10:00:00", items := [], subtotal := 0
    discount := 0, taxRate := 0, taxAmount := 0, total := 0
    paymentMethod := PaymentMethod.cash, customerId := some "c1"
    customerSnapshot := some snapCustomer, notes := none }

/-- A local state (no orphaned child rows) whose sale has a snapshot. -/
def snapData : LocalData :=
  { products := [], customers := [snapCustomer], sales := [snapSale] }

/-- C4 counterexample: push transmits no snapshot column, so pulling
right after pushing `snapData` loses the sale's `customerSnapshot` and
the round trip is not the identity. -/
theorem cloudPull_cloudPush_counterexample :
    snapSale.customerSnapshot = some snapCustomer ∧
    cloudPull (cloudPush snapData) ("T") ≠ snapData ∧
    (cloudPull (cloudPush snapData) ("T")).sales.map (fun s => s.customerSnapshot)
      = [none] := by
  refine ⟨rfl, by decide, by rfl⟩

/-- C4 (amended): for a local state with unique product ids and unique
sale ids, pulling right after pushing into an empty remote store
returns exactly the original state except that every sale's
`customerSnapshot` is erased (push has no column for it); when no sale
carries a snapshot the round trip is the identity. -/
theorem cloudPull_cloudPush (d : LocalData) (now : String)
    (hpd : (d.products.map Product.id).Nodup)
    (hsd : (d.sales.map Sale.id).Nodup) :
    cloudPull (cloudPush d) now
      = { products := d.products, customers := d.customers
          sales := d.sales.map eraseSnapshot } ∧
    ((∀ s ∈ d.sales, s.customerSnapshot = none) →
      cloudPull (cloudPush d) now = d) := by
  have hprods : attachAll VarRow.product_id Product.id addVariant
      ((d.products.map toProdRow).map prodOfRow)
      (d.products.flatMap (fun p => p.variants.map (toVarRow p.id)))
      = d.products := by
    rw [List.map_map]
    have hbase : (prodOfRow ∘ toProdRow)
        = (fun p : Product => { p with variants := [] }) := rfl
    rw [hbase]
    apply attachAll_flatMap VarRow.product_id Product.id addVariant
      (fun p => p.variants.map (toVarRow p.id))
      (fun p : Product => { p with variants := [] }) d.products
      (fun p => rfl) (fun q r => rfl)
    · intro p _ r hr
      rcases List.mem_map.mp hr with ⟨v, _, rfl⟩
      rfl
    · intro p _
      rw [foldl_addVariant]
      show Product.mk p.id p.name p.sku p.category p.cost p.price
        ([] ++ p.variants) p.notes p.imageUrl = p
      rw [List.nil_append]
    · exact hpd
  have hcusts : (d.customers.map toCustRow).map custOfRow = d.customers := by
    rw [List.map_map]
    have hbase : (custOfRow ∘ toCustRow) = (id : Customer → Customer) := rfl
    rw [hbase, List.map_id]
  have hsales : attachAll ItemRow.sale_id Sale.id addItem
      ((d.sales.map toSaleRow).map (saleOfRow now))
      (d.sales.flatMap (fun s => s.items.map (toItemRow s.id)))
      = d.sales.map eraseSnapshot := by
    have hbase : (d.sales.map toSaleRow).map (saleOfRow now)
        = (d.sales.map eraseSnapshot).map (fun s : Sale => { s with items := [] }) := by
      rw [List.map_map, List.map_map]
      rfl
    have hrows : d.sales.flatMap (fun s => s.items.map (toItemRow s.id))
        = (d.sales.map eraseSnapshot).flatMap (fun s => s.items.map (toItemRow s.id)) := by
      rw [List.flatMap_map]
      rfl
    rw [hbase, hrows]
    apply attachAll_flatMap ItemRow.sale_id Sale.id addItem
      (fun s => s.items.map (toItemRow s.id))
      (fun s : Sale => { s with items := [] }) (d.sales.map eraseSnapshot)
      (fun s => rfl) (fun q r => rfl)
    · intro s _ r hr
      rcases List.mem_map.mp hr with ⟨it, _, rfl⟩
      rfl
    · intro s _
      rw [foldl_addItem]
      show Sale.mk s.id s.createdAt ([] ++ s.items) s.subtotal s.discount s.taxRate
        s.taxAmount s.total s.paymentMethod s.customerId s.customerSnapshot s.notes = s
      rw [List.nil_append]
    · rw [List.map_map]
      have hid : (Sale.id ∘ eraseSnapshot) = Sale.id := rfl
      rw [hid]
      exact hsd
  have hmain : cloudPull (cloudPush d) now
      = { products := d.products, customers := d.customers
          sales := d.sales.map eraseSnapshot } := by
    show LocalData.mk
        (attachAll VarRow.product_id Product.id addVariant
          ((d.products.map toProdRow).map prodOfRow)
          (d.products.flatMap (fun p => p.variants.map (toVarRow p.id))))
        ((d.customers.map toCustRow).map custOfRow)
        (attachAll ItemRow.sale_id Sale.id addItem
          ((d.sales.map toSaleRow).map (saleOfRow now))
          (d.sales.flatMap (fun s => s.items.map (toItemRow s.id))))
      = LocalData.mk d.products d.customers (d.sales.map eraseSnapshot)
    rw [hprods, hcusts, hsales]
  refine ⟨hmain, fun hsn => ?_⟩
  rw [hmain]
  have hid : d.sales.map eraseSnapshot = d.sales := by
    calc _ = d.sales.map id := by
          apply List.map_congr_left
          intro s hs
          show Sale.mk s.id s.createdAt s.items s.subtotal s.discount s.taxRate
            s.taxAmount s.total s.paymentMethod s.customerId none s.notes = s
          rw [← hsn s hs]
      _ = d.sales := List.map_id _
  rw [hid]

/-- A sale item matching the example product's variant. -/
def rtItem : SaleItem :=
  { id := "i1", productId := "p1", variantId := some "v1"
    sku := "TEE-001-M-Black", name := "Tee (M/Black)", size := some "M"
    color := some "Black", qty := 2, price := 500 }

/-- A snapshot-free sale over `rtItem`. -/
def rtSale : Sale :=
  { id := "s1", createdAt := "2025-06-15T10:00:00", items := [rtItem]
    subtotal := 1000, discount := 100, taxRate := 13, taxAmount := 117
    total := 1017, paymentMethod := PaymentMethod.card, customerId := none
    customerSnapshot := none, notes := some "walk-in" }

/-- A full snapshot-free local state exercising every table. -/
def rtData : LocalData :=
  { products := [exProduct], customers := [snapCustomer], sales := [rtSale] }

/-- C4 witness: the amended round trip evaluated on a concrete state
with a product, a variant, a customer, and a sale with one item. -/
theorem cloudPull_cloudPush_witness :
    cloudPull (cloudPush rtData) ("T")
      = { products := rtData.products, customers := rtData.customers
          sales := rtData.sales.map eraseSnapshot } ∧
    cloudPull (cloudPush rtData) ("T") = rtData :=
  ⟨(cloudPull_cloudPush rtData ("T") (by decide) (by decide)).1,
   (cloudPull_cloudPush rtData ("T") (by decide) (by decide)).2 (by decide)⟩
